import Mathlib

/-!
# The B-tree map of `src/collections/btree_map/mod.rs`

Shallow embedding of `SBTreeMap<K, V, AK, AV>` specialized to natural-number
keys and values (the repository instantiates it with integer types in its
tests; only `Ord` is used on keys).

The `SVec` stack-vector type used for `keys`, `values` and `children` is not
part of src/; following the specification ("low-level key/child-pointer array
edit primitives (insert/remove/push at index, binary search)") an `SVec` is
modelled as a Lean list and its edit primitives as the corresponding list
operations: `insert idx x` is `List.insertIdx`, `remove idx` is
`List.eraseIdx` (returning the removed element, read with `l[idx]?`),
`replace idx x` is `List.set`, `push`/`pop` act on the list end, and
`get_copy idx` is `l[idx]?`.

Recursive tree operations take an explicit recursion budget `fuel` so that
they are structurally recursive and evaluate inside the kernel; a `none`
result models either budget exhaustion or a panicking `unwrap()`/out-of-range
`SVec` index in the source.  All concrete evaluations below use budgets far
above the tree height, so `some` results are exactly what the source
computes.
-/

namespace BTreeMapMod

/-- Order constant of the B-tree, `const B: usize = 6`. -/
def B : Nat := 6

/-- `const CAPACITY: usize = 2 * B - 1`. -/
def CAPACITY : Nat := 2 * B - 1

/-- `const MIN_LEN_AFTER_SPLIT: usize = B - 1`. -/
def MIN_LEN_AFTER_SPLIT : Nat := B - 1

/-- The node type `BTreeNode<K, V, AK, AV>` of src/collections/btree_map/mod.rs. -/
inductive BTreeNode : Type where
  | mk (is_leaf : Bool) (is_root : Bool) (keys : List Nat) (values : List Nat)
      (children : List BTreeNode)

namespace BTreeNode

def is_leaf : BTreeNode → Bool
  | .mk l _ _ _ _ => l

def is_root : BTreeNode → Bool
  | .mk _ r _ _ _ => r

def keys : BTreeNode → List Nat
  | .mk _ _ ks _ _ => ks

def values : BTreeNode → List Nat
  | .mk _ _ _ vs _ => vs

def children : BTreeNode → List BTreeNode
  | .mk _ _ _ _ cs => cs

/-- `BTreeNode::new(is_leaf, is_root)`: empty keys, values and children. -/
def new (l r : Bool) : BTreeNode := .mk l r [] [] []

instance : Inhabited BTreeNode := ⟨new true true⟩

end BTreeNode

/-- Modelled from the spec: `SVec::binary_search_by` (the `SVec` source is not
under src/; the spec describes the node search as binary search over the
sorted key array).  On a sorted list this computes exactly the binary-search
result: `.ok i` when `keys[i] = k`, otherwise `.error i` where `i` is the
sorted insertion point. -/
def bsearch (k : Nat) : List Nat → Except Nat Nat
  | [] => .error 0
  | x :: xs =>
    if k < x then .error 0
    else if k = x then .ok 0
    else
      match bsearch k xs with
      | .ok i => .ok (i + 1)
      | .error i => .error (i + 1)

/-- The loop in `split_child` that runs `dst.push(src.remove(B))` `n` times
(on the key and value vectors). -/
def moveAtB : Nat → List Nat × List Nat → List Nat × List Nat
  | 0, p => p
  | n + 1, (src, dst) => moveAtB n (src.eraseIdx B, dst ++ (src[B]?).toList)

/-- The loop in `split_child` that runs `new.push(src.remove(B))` `n` times
on the children vector. -/
def moveChildrenAtB :
    Nat → List BTreeNode × List BTreeNode → List BTreeNode × List BTreeNode
  | 0, p => p
  | n + 1, (src, dst) => moveChildrenAtB n (src.eraseIdx B, dst ++ (src[B]?).toList)

open BTreeNode in
/-- `SBTreeMap::split_child(node, idx)` from src/collections/btree_map/mod.rs:
move the upper `B-1` keys/values (and `B` children) of the full child into a
fresh sibling, and move the median key/value up into `node` at `idx`.  A
failing `unwrap()` (impossible on the states the map builds) leaves the node
unchanged. -/
def split_child : BTreeNode → Nat → BTreeNode
  | .mk il ir ks vs cs, idx =>
    match cs[idx]? with
    | none => .mk il ir ks vs cs
    | some child =>
      let mvk := moveAtB MIN_LEN_AFTER_SPLIT (child.keys, [])
      let mvv := moveAtB MIN_LEN_AFTER_SPLIT (child.values, [])
      let mvc :=
        if child.is_leaf then (child.children, ([] : List BTreeNode))
        else moveChildrenAtB B (child.children, [])
      let child2 := BTreeNode.mk child.is_leaf child.is_root
        (mvk.1.eraseIdx MIN_LEN_AFTER_SPLIT) (mvv.1.eraseIdx MIN_LEN_AFTER_SPLIT) mvc.1
      let new_child := BTreeNode.mk child.is_leaf false mvk.2 mvv.2 mvc.2
      BTreeNode.mk il ir
        (ks.insertIdx idx ((mvk.1[MIN_LEN_AFTER_SPLIT]?).getD 0))
        (vs.insertIdx idx ((mvv.1[MIN_LEN_AFTER_SPLIT]?).getD 0))
        ((cs.set idx child2).insertIdx (idx + 1) new_child)

open BTreeNode in
/-- The block at the head of the internal-node miss branch of
`SBTreeMap::insert_non_full`: if the child about to be entered is full, split
it first, then re-decide the descent index by comparing the key with the
promoted median (`if key.gt(&node.keys.get_copy(idx).unwrap()) { idx += 1 }`).
Note that the binary search of the enclosing call happened *before* the
split, so the key is never compared for equality with the promoted median. -/
def maybe_split_child (node : BTreeNode) (idx : Nat) (key : Nat) : BTreeNode × Nat :=
  match node.children[idx]? with
  | none => (node, idx)
  | some c =>
    if c.keys.length = CAPACITY then
      let node := split_child node idx
      match node.keys[idx]? with
      | none => (node, idx)
      | some m => if m < key then (node, idx + 1) else (node, idx)
    else (node, idx)

open BTreeNode in
/-- `SBTreeMap::insert_non_full(node, key, value)` from
src/collections/btree_map/mod.rs, with explicit recursion budget.  Returns
the pair (the `Option<V>` result, the node after mutation). -/
def insert_non_full (fuel : Nat) (node : BTreeNode) (key value : Nat) :
    Option (Option Nat × BTreeNode) :=
  match fuel with
  | 0 => none
  | fuel + 1 =>
    match bsearch key node.keys with
    | .ok idx =>
      match node.values[idx]? with
      | none => none
      | some old =>
        some (some old,
          .mk node.is_leaf node.is_root node.keys (node.values.set idx value) node.children)
    | .error idx =>
      if node.is_leaf then
        some (none, .mk node.is_leaf node.is_root (node.keys.insertIdx idx key)
          (node.values.insertIdx idx value) node.children)
      else
        let p := maybe_split_child node idx key
        match p.1.children[p.2]? with
        | none => none
        | some child =>
          match insert_non_full fuel child key value with
          | none => none
          | some (res, child2) =>
            some (res, .mk p.1.is_leaf p.1.is_root p.1.keys p.1.values
              (p.1.children.set p.2 child2))

/-- The struct `SBTreeMap<K, V, AK, AV>`: its root node and cached length. -/
structure SBTreeMap where
  root : BTreeNode
  len : Nat

/-- `SBTreeMap::new()`. -/
def SBTreeMap.new : SBTreeMap := ⟨BTreeNode.new true true, 0⟩

open BTreeNode in
/-- `SBTreeMap::insert(key, value)` from src/collections/btree_map/mod.rs:
split a full root first (the only way the height grows), then insert through
`insert_non_full`; the length grows exactly when the result is `None`. -/
def SBTreeMap.insert (fuel : Nat) (m : SBTreeMap) (key value : Nat) :
    Option (Option Nat × SBTreeMap) :=
  let rr :=
    if m.root.keys.length = CAPACITY then
      let old_root := BTreeNode.mk m.root.is_leaf false m.root.keys m.root.values
        m.root.children
      let temp := split_child (BTreeNode.mk false true [] [] [old_root]) 0
      insert_non_full fuel temp key value
    else
      insert_non_full fuel m.root key value
  match rr with
  | none => none
  | some (res, root2) =>
    some (res, ⟨root2, if res = none then m.len + 1 else m.len⟩)

/-- `SBTreeMap::_get(node, key)`, the recursive worker of `get_copy`. -/
def get_node (fuel : Nat) (node : BTreeNode) (key : Nat) : Option (Option Nat) :=
  match fuel with
  | 0 => none
  | fuel + 1 =>
    match bsearch key node.keys with
    | .ok idx => some node.values[idx]?
    | .error idx =>
      match node.children[idx]? with
      | none => some none
      | some child => get_node fuel child key

/-- `SBTreeMap::get_copy(key)`. -/
def SBTreeMap.get_copy (fuel : Nat) (m : SBTreeMap) (key : Nat) : Option (Option Nat) :=
  get_node fuel m.root key

/-- `SBTreeMap::_contains_key(node, key)`, recursive worker of `contains_key`. -/
def contains_node (fuel : Nat) (node : BTreeNode) (key : Nat) : Option Bool :=
  match fuel with
  | 0 => none
  | fuel + 1 =>
    match bsearch key node.keys with
    | .ok _ => some true
    | .error idx =>
      match node.children[idx]? with
      | none => some false
      | some child => contains_node fuel child key

/-- `SBTreeMap::contains_key(key)`. -/
def SBTreeMap.contains_key (fuel : Nat) (m : SBTreeMap) (key : Nat) : Option Bool :=
  contains_node fuel m.root key

end BTreeMapMod

namespace BTreeMapMod

open BTreeNode

/-- `SBTreeMap::delete_merge(node, i, j)` from src/collections/btree_map/mod.rs:
merge child `i` with its sibling `j`, absorbing the separating key; promotes
the merged child when the root becomes empty.  Out-of-range accesses (panics
in the source) return the node unchanged. -/
def delete_merge (node : BTreeNode) (i j : Nat) : BTreeNode :=
  match node.children[i]? with
  | none => node
  | some child =>
    if i < j then
      match node.children[j]?, node.keys[i]?, node.values[i]? with
      | some right_sib, some sk, some sv =>
        let children1 := node.children.eraseIdx j
        let keys1 := node.keys.eraseIdx i
        let values1 := node.values.eraseIdx i
        let child2 := BTreeNode.mk child.is_leaf child.is_root
          (child.keys ++ [sk] ++ right_sib.keys)
          (child.values ++ [sv] ++ right_sib.values)
          (child.children ++ right_sib.children)
        if node.is_root && keys1.isEmpty then
          BTreeNode.mk child2.is_leaf true child2.keys child2.values child2.children
        else
          BTreeNode.mk node.is_leaf node.is_root keys1 values1 (children1.set i child2)
      | _, _, _ => node
    else
      match node.children[j]?, node.keys[j]?, node.values[j]? with
      | some left_sib, some sk, some sv =>
        let keys1 := node.keys.eraseIdx j
        let values1 := node.values.eraseIdx j
        let left2 := BTreeNode.mk left_sib.is_leaf left_sib.is_root
          (left_sib.keys ++ [sk] ++ child.keys)
          (left_sib.values ++ [sv] ++ child.values)
          (left_sib.children ++ child.children)
        let children1 := node.children.eraseIdx i
        if node.is_root && keys1.isEmpty then
          BTreeNode.mk left2.is_leaf true left2.keys left2.values left2.children
        else
          BTreeNode.mk node.is_leaf node.is_root keys1 values1 (children1.set j left2)
      | _, _, _ => node

/-- `SBTreeMap::delete_sibling(node, i, j)` from
src/collections/btree_map/mod.rs: child `i` borrows one key from sibling `j`,
rotating through the separating key of the parent. -/
def delete_sibling (node : BTreeNode) (i j : Nat) : BTreeNode :=
  match node.children[i]? with
  | none => node
  | some child =>
    if i < j then
      match node.children[j]?, node.keys[i]?, node.values[i]? with
      | some right_sib, some sk, some sv =>
        match right_sib.keys, right_sib.values with
        | rk :: rks, rv :: rvs =>
          let keys2 := (node.keys.eraseIdx i).insertIdx i rk
          let values2 := (node.values.eraseIdx i).insertIdx i rv
          let child2 := BTreeNode.mk child.is_leaf child.is_root
            (child.keys ++ [sk]) (child.values ++ [sv])
            (if right_sib.children.isEmpty then child.children
             else child.children ++ right_sib.children.take 1)
          let right2 := BTreeNode.mk right_sib.is_leaf right_sib.is_root rks rvs
            (if right_sib.children.isEmpty then right_sib.children
             else right_sib.children.eraseIdx 0)
          BTreeNode.mk node.is_leaf node.is_root keys2 values2
            ((node.children.set j right2).set i child2)
        | _, _ => node
      | _, _, _ => node
    else
      match node.children[j]?, node.keys[i - 1]?, node.values[i - 1]? with
      | some left_sib, some sk, some sv =>
        match left_sib.keys.getLast?, left_sib.values.getLast? with
        | some lk, some lv =>
          let keys2 := (node.keys.eraseIdx (i - 1)).insertIdx (i - 1) lk
          let values2 := (node.values.eraseIdx (i - 1)).insertIdx (i - 1) lv
          let child2 := BTreeNode.mk child.is_leaf child.is_root
            (sk :: child.keys) (sv :: child.values)
            (match left_sib.children.getLast? with
             | none => child.children
             | some g => g :: child.children)
          let left2 := BTreeNode.mk left_sib.is_leaf left_sib.is_root
            left_sib.keys.dropLast left_sib.values.dropLast
            (if left_sib.children.isEmpty then left_sib.children
             else left_sib.children.dropLast)
          BTreeNode.mk node.is_leaf node.is_root keys2 values2
            ((node.children.set j left2).set i child2)
        | _, _ => node
      | _, _, _ => node

mutual

/-- `SBTreeMap::_delete(node, key)` from src/collections/btree_map/mod.rs,
with an explicit recursion budget (`none` = budget exhausted or a panicking
`unwrap()`; a `some` result is the value the source computes). -/
def delete_node (fuel : Nat) (node : BTreeNode) (key : Nat) :
    Option (Option Nat × BTreeNode) :=
  match fuel with
  | 0 => none
  | fuel + 1 =>
    match bsearch key node.keys with
    | .ok idx =>
      if node.is_leaf then
        match node.values[idx]? with
        | none => none
        | some v =>
          some (some v, .mk node.is_leaf node.is_root (node.keys.eraseIdx idx)
            (node.values.eraseIdx idx) node.children)
      else
        delete_internal_node fuel node key idx
    | .error idx =>
      if node.is_leaf then some (none, node)
      else
        match node.children[idx]? with
        | none => none
        | some child =>
          if B ≤ child.keys.length then
            descend_delete fuel node key idx
          else if idx ≠ 0 ∧ idx + 1 < node.children.length then
            match node.children[idx - 1]?, node.children[idx + 1]? with
            | some left_sib, some right_sib =>
              if B ≤ left_sib.keys.length then
                descend_delete fuel (delete_sibling node idx (idx - 1)) key idx
              else if B ≤ right_sib.keys.length then
                descend_delete fuel (delete_sibling node idx (idx + 1)) key idx
              else
                delete_node fuel (delete_merge node idx (idx + 1)) key
            | _, _ => none
          else if idx = 0 then
            match node.children[idx + 1]? with
            | none => none
            | some right_sib =>
              if B ≤ right_sib.keys.length then
                descend_delete fuel (delete_sibling node idx (idx + 1)) key idx
              else
                delete_node fuel (delete_merge node idx (idx + 1)) key
          else if idx + 1 = node.children.length then
            match node.children[idx - 1]? with
            | none => none
            | some left_sib =>
              if B ≤ left_sib.keys.length then
                descend_delete fuel (delete_sibling node idx (idx - 1)) key idx
              else
                delete_node fuel (delete_merge node idx (idx - 1)) key
          else
            descend_delete fuel node key idx
  termination_by structural fuel

/-- The shared tail of the miss branch of `_delete`: descend into
`children[idx]` and write the mutated child back. -/
def descend_delete (fuel : Nat) (node : BTreeNode) (key : Nat) (idx : Nat) :
    Option (Option Nat × BTreeNode) :=
  match fuel with
  | 0 => none
  | fuel + 1 =>
    match node.children[idx]? with
    | none => none
    | some child =>
      match delete_node fuel child key with
      | none => none
      | some (res, child2) =>
        some (res, .mk node.is_leaf node.is_root node.keys node.values
          (node.children.set idx child2))
  termination_by structural fuel

/-- `SBTreeMap::delete_internal_node(node, key, idx)` from
src/collections/btree_map/mod.rs. -/
def delete_internal_node (fuel : Nat) (node : BTreeNode) (key : Nat) (idx : Nat) :
    Option (Option Nat × BTreeNode) :=
  match fuel with
  | 0 => none
  | fuel + 1 =>
  match node.children[idx]?, node.children[idx + 1]? with
  | some left_child, some right_child =>
    if B ≤ left_child.keys.length then
      match delete_predecessor fuel left_child with
      | none => none
      | some (k, v, left') =>
        match node.values[idx]? with
        | none => none
        | some vOld =>
          some (some vOld, .mk node.is_leaf node.is_root (node.keys.set idx k)
            (node.values.set idx v) (node.children.set idx left'))
    else if B ≤ right_child.keys.length then
      match delete_successor fuel right_child with
      | none => none
      | some (k, v, right') =>
        match node.values[idx]? with
        | none => none
        | some vOld =>
          some (some vOld, .mk node.is_leaf node.is_root (node.keys.set idx k)
            (node.values.set idx v) (node.children.set (idx + 1) right'))
    else
      delete_node fuel (delete_merge node idx (idx + 1)) key
  | _, _ => none
  termination_by structural fuel

/-- `SBTreeMap::delete_predecessor(child)` from
src/collections/btree_map/mod.rs. -/
def delete_predecessor (fuel : Nat) (child : BTreeNode) :
    Option (Nat × Nat × BTreeNode) :=
  match fuel with
  | 0 => none
  | fuel + 1 =>
    if child.is_leaf then
      match child.keys.getLast?, child.values.getLast? with
      | some k, some v =>
        some (k, v, .mk child.is_leaf child.is_root child.keys.dropLast
          child.values.dropLast child.children)
      | _, _ => none
    else
      let n := child.keys.length - 1
      match child.children[n]? with
      | none => none
      | some grand =>
        let child2 :=
          if B ≤ grand.keys.length then delete_sibling child (n + 1) n
          else delete_merge child (n + 1) n
        match child2.children[n]? with
        | none => none
        | some grand2 =>
          match delete_predecessor fuel grand2 with
          | none => none
          | some (k, v, g3) =>
            some (k, v, .mk child2.is_leaf child2.is_root child2.keys child2.values
              (child2.children.set n g3))
  termination_by structural fuel

/-- `SBTreeMap::delete_successor(child)` from src/collections/btree_map/mod.rs. -/
def delete_successor (fuel : Nat) (child : BTreeNode) :
    Option (Nat × Nat × BTreeNode) :=
  match fuel with
  | 0 => none
  | fuel + 1 =>
    if child.is_leaf then
      match child.keys, child.values with
      | k :: ks, v :: vs =>
        some (k, v, .mk child.is_leaf child.is_root ks vs child.children)
      | _, _ => none
    else
      match child.children[0]? with
      | none => none
      | some grand =>
        let child2 :=
          if B ≤ grand.keys.length then delete_sibling child 0 1
          else delete_merge child 0 1
        match child2.children[0]? with
        | none => none
        | some grand2 =>
          match delete_successor fuel grand2 with
          | none => none
          | some (k, v, g3) =>
            some (k, v, .mk child2.is_leaf child2.is_root child2.keys child2.values
              (child2.children.set 0 g3))
  termination_by structural fuel

end

/-- `SBTreeMap::remove(key)` from src/collections/btree_map/mod.rs.  Note that
`_delete` receives `&mut self.root`, so mutations performed during an
unsuccessful search are kept. -/
def SBTreeMap.remove (fuel : Nat) (m : SBTreeMap) (key : Nat) :
    Option (Option Nat × SBTreeMap) :=
  match delete_node fuel m.root key with
  | none => none
  | some (none, root2) => some (none, ⟨root2, m.len⟩)
  | some (some v, root2) => some (some v, ⟨root2, m.len - 1⟩)

end BTreeMapMod

namespace BTreeMapMod

open BTreeNode

/-- Interleave the entry lists of the children with the node's own entries
(child 0, entry 0, child 1, entry 1, ..., last child). -/
def interleave : List (List (Nat × Nat)) → List (Nat × Nat) → List (Nat × Nat)
  | [], _ => []
  | es :: rest, [] => es ++ interleave rest []
  | es :: rest, p :: ps => es ++ p :: interleave rest ps

/-- In-order list of (key, value) entries of a subtree (recursion budget
`fuel`; with enough budget this is the in-order traversal that the
repository's own test helper `btree_to_sorted_vec` computes). -/
def entries : Nat → BTreeNode → List (Nat × Nat)
  | 0, _ => []
  | fuel + 1, .mk _ _ ks vs cs =>
    match cs with
    | [] => ks.zip vs
    | _ :: _ => interleave (cs.map (entries fuel)) (ks.zip vs)

/-- Keys of a subtree, in order. -/
def keys_of (fuel : Nat) (t : BTreeNode) : List Nat := (entries fuel t).map Prod.fst

/-- Strictly-ascending chain check. -/
def chainLt : List Nat → Bool
  | [] => true
  | [_] => true
  | a :: b :: l => decide (a < b) && chainLt (b :: l)

/-- Height of a node, with recursion budget. -/
def heightF : Nat → BTreeNode → Nat
  | 0, _ => 0
  | fuel + 1, t => 1 + (t.children.map (heightF fuel)).foldr max 0

/-- Balance checker for the spec's invariant: every non-root node holds
between `B-1` and `2B-1` keys, every internal node with `len` keys has
`len+1` children, and all leaves are at the same depth (equivalently, at
every node all children have equal height). -/
def balanced_node : Nat → Bool → BTreeNode → Bool
  | 0, _, _ => false
  | fuel + 1, isRoot, t =>
    (isRoot || (decide (MIN_LEN_AFTER_SPLIT ≤ t.keys.length) &&
                decide (t.keys.length ≤ CAPACITY))) &&
    (if t.is_leaf then t.children.isEmpty
     else t.children.length == t.keys.length + 1) &&
    (match t.children with
     | [] => true
     | c :: rest => rest.all fun d => heightF fuel d == heightF fuel c) &&
    t.children.all (balanced_node fuel false)

/-- Balance checker at the whole-map level. -/
def SBTreeMap.balanced (fuel : Nat) (m : SBTreeMap) : Bool :=
  balanced_node fuel true m.root

/-- Sorted-order checker at the whole-map level. -/
def SBTreeMap.sorted_keys (fuel : Nat) (m : SBTreeMap) : Bool :=
  chainLt (keys_of fuel m.root)

/-- An operation on the map. -/
inductive MapOp : Type where
  | ins (k v : Nat)
  | del (k : Nat)

/-- Run a list of operations from a starting map. -/
def run_ops (fuel : Nat) (m : SBTreeMap) : List MapOp → Option SBTreeMap
  | [] => some m
  | .ins k v :: ops =>
    match m.insert fuel k v with
    | none => none
    | some (_, m2) => run_ops fuel m2 ops
  | .del k :: ops =>
    match m.remove fuel k with
    | none => none
    | some (_, m2) => run_ops fuel m2 ops

/-- Insertions of `(k, k)` for each listed key. -/
def insOps (l : List Nat) : List MapOp := l.map fun k => MapOp.ins k k

end BTreeMapMod



namespace BTreeMapMod

/-- Fuel-indexed structural equality test on nodes, used to certify concrete
evaluation results inside the kernel. -/
def beqNode : Nat → BTreeNode → BTreeNode → Bool
  | 0, _, _ => false
  | f + 1, .mk l1 r1 k1 v1 c1, .mk l2 r2 k2 v2 c2 =>
    (l1 == l2) && (r1 == r2) && (k1 == k2) && (v1 == v2) &&
    (c1.length == c2.length) && (c1.zip c2).all fun p => beqNode f p.1 p.2

/-- Fuel-indexed equality test on optional map states. -/
def beqOS (f : Nat) : Option SBTreeMap → Option SBTreeMap → Bool
  | none, none => true
  | some a, some b => beqNode f a.root b.root && (a.len == b.len)
  | _, _ => false

/-- The 80 insertions 0, 10, ..., 790 (in ascending order): they build a
height-3 tree whose root key is 350. -/
def opsBase80 : List MapOp := [MapOp.ins 0 0, MapOp.ins 10 10, MapOp.ins 20 20, MapOp.ins 30 30, MapOp.ins 40 40, MapOp.ins 50 50, MapOp.ins 60 60, MapOp.ins 70 70, MapOp.ins 80 80, MapOp.ins 90 90, MapOp.ins 100 100, MapOp.ins 110 110, MapOp.ins 120 120, MapOp.ins 130 130, MapOp.ins 140 140, MapOp.ins 150 150, MapOp.ins 160 160, MapOp.ins 170 170, MapOp.ins 180 180, MapOp.ins 190 190, MapOp.ins 200 200, MapOp.ins 210 210, MapOp.ins 220 220, MapOp.ins 230 230, MapOp.ins 240 240, MapOp.ins 250 250, MapOp.ins 260 260, MapOp.ins 270 270, MapOp.ins 280 280, MapOp.ins 290 290, MapOp.ins 300 300, MapOp.ins 310 310, MapOp.ins 320 320, MapOp.ins 330 330, MapOp.ins 340 340, MapOp.ins 350 350, MapOp.ins 360 360, MapOp.ins 370 370, MapOp.ins 380 380, MapOp.ins 390 390, MapOp.ins 400 400, MapOp.ins 410 410, MapOp.ins 420 420, MapOp.ins 430 430, MapOp.ins 440 440, MapOp.ins 450 450, MapOp.ins 460 460, MapOp.ins 470 470, MapOp.ins 480 480, MapOp.ins 490 490, MapOp.ins 500 500, MapOp.ins 510 510, MapOp.ins 520 520, MapOp.ins 530 530, MapOp.ins 540 540, MapOp.ins 550 550, MapOp.ins 560 560, MapOp.ins 570 570, MapOp.ins 580 580, MapOp.ins 590 590, MapOp.ins 600 600, MapOp.ins 610 610, MapOp.ins 620 620, MapOp.ins 630 630, MapOp.ins 640 640, MapOp.ins 650 650, MapOp.ins 660 660, MapOp.ins 670 670, MapOp.ins 680 680, MapOp.ins 690 690, MapOp.ins 700 700, MapOp.ins 710 710, MapOp.ins 720 720, MapOp.ins 730 730, MapOp.ins 740 740, MapOp.ins 750 750, MapOp.ins 760 760, MapOp.ins 770 770, MapOp.ins 780 780, MapOp.ins 790 790]

/-- Further insertions fattening the leaf holding 420..460 to 11 keys
(without splitting it). -/
def opsFatten416 : List MapOp := [MapOp.ins 411 411, MapOp.ins 412 412, MapOp.ins 413 413, MapOp.ins 414 414, MapOp.ins 415 415, MapOp.ins 416 416]

/-- Further insertions that give the leftmost internal node 6 keys (one leaf
split) and fatten its second-to-last leaf to 11 keys. -/
def opsFattenLeft : List MapOp :=
  [MapOp.ins 1 1, MapOp.ins 2 2, MapOp.ins 3 3, MapOp.ins 4 4, MapOp.ins 5 5,
   MapOp.ins 6 6, MapOp.ins 7 7, MapOp.ins 241 241, MapOp.ins 242 242,
   MapOp.ins 243 243, MapOp.ins 244 244, MapOp.ins 245 245, MapOp.ins 246 246]

/-- The tail of the C3 attack: the fattening insertions followed by the
removal of the root key. -/
def opsC3tail : List MapOp := opsFatten416 ++ [MapOp.del 350]

/-- The tail of the C2 attack: the fattening insertions followed by the
removal of the root key. -/
def opsC2tail : List MapOp := opsFattenLeft ++ [MapOp.del 350]

/-- Input refuting the balance invariant: after the fattening insertions,
removing the root key 350 routes through
`delete_internal_node` → `delete_successor` → `delete_merge`, and
`delete_successor` merges `children[0]` with `children[1]` without checking
the sibling size, producing a leaf with 16 keys > `2B-1`. -/
def opsC3attack : List MapOp := opsBase80 ++ opsC3tail

/-- The same height-3 tree, fattened on the left; removing the root key 350
routes through `delete_internal_node` → `delete_predecessor`, whose borrow
branch (`delete_sibling(child, n+1, n)`) then recurses into `children[n]` —
the *sibling* it borrowed from — instead of the last child, so the key it
hands up as the new separator is smaller than keys remaining in the left
subtree: the tree is no longer a search tree and the keys 280..340 become
unreachable. -/
def opsC2attack : List MapOp := opsBase80 ++ opsC2tail

/-- Seventeen distinct insertions 0..16: the root holds the single key 5 and
its right child holds the 11 keys 6..16 (full). -/
def opsC1seq : List MapOp := [MapOp.ins 0 0, MapOp.ins 1 1, MapOp.ins 2 2, MapOp.ins 3 3, MapOp.ins 4 4, MapOp.ins 5 5, MapOp.ins 6 6, MapOp.ins 7 7, MapOp.ins 8 8, MapOp.ins 9 9, MapOp.ins 10 10, MapOp.ins 11 11, MapOp.ins 12 12, MapOp.ins 13 13, MapOp.ins 14 14, MapOp.ins 15 15, MapOp.ins 16 16]

set_option maxHeartbeats 1000000 in
/-- The state reached from the empty map by `opsBase80` (certified below by
the theorem run_ops_opsBase80). -/
def base80st : SBTreeMap := { root := BTreeMapMod.BTreeNode.mk false true [350] [350] [BTreeMapMod.BTreeNode.mk false false [50, 110, 170, 230, 290] [50, 110, 170, 230, 290] [BTreeMapMod.BTreeNode.mk true false [0, 10, 20, 30, 40] [0, 10, 20, 30, 40] [], BTreeMapMod.BTreeNode.mk true false [60, 70, 80, 90, 100] [60, 70, 80, 90, 100] [], BTreeMapMod.BTreeNode.mk true false [120, 130, 140, 150, 160] [120, 130, 140, 150, 160] [], BTreeMapMod.BTreeNode.mk true false [180, 190, 200, 210, 220] [180, 190, 200, 210, 220] [], BTreeMapMod.BTreeNode.mk true false [240, 250, 260, 270, 280] [240, 250, 260, 270, 280] [], BTreeMapMod.BTreeNode.mk true false [300, 310, 320, 330, 340] [300, 310, 320, 330, 340] []], BTreeMapMod.BTreeNode.mk false false [410, 470, 530, 590, 650, 710] [410, 470, 530, 590, 650, 710] [BTreeMapMod.BTreeNode.mk true false [360, 370, 380, 390, 400] [360, 370, 380, 390, 400] [], BTreeMapMod.BTreeNode.mk true false [420, 430, 440, 450, 460] [420, 430, 440, 450, 460] [], BTreeMapMod.BTreeNode.mk true false [480, 490, 500, 510, 520] [480, 490, 500, 510, 520] [], BTreeMapMod.BTreeNode.mk true false [540, 550, 560, 570, 580] [540, 550, 560, 570, 580] [], BTreeMapMod.BTreeNode.mk true false [600, 610, 620, 630, 640] [600, 610, 620, 630, 640] [], BTreeMapMod.BTreeNode.mk true false [660, 670, 680, 690, 700] [660, 670, 680, 690, 700] [], BTreeMapMod.BTreeNode.mk true false [720, 730, 740, 750, 760, 770, 780, 790] [720, 730, 740, 750, 760, 770, 780, 790] []]], len := 80 }


set_option maxHeartbeats 1000000 in
/-- The state reached from base80st by the C3 fattening insertions
(certified by run_ops_opsFatten416). -/
def c3fatst : SBTreeMap := { root := BTreeMapMod.BTreeNode.mk false true [350] [350] [BTreeMapMod.BTreeNode.mk false false [50, 110, 170, 230, 290] [50, 110, 170, 230, 290] [BTreeMapMod.BTreeNode.mk true false [0, 10, 20, 30, 40] [0, 10, 20, 30, 40] [], BTreeMapMod.BTreeNode.mk true false [60, 70, 80, 90, 100] [60, 70, 80, 90, 100] [], BTreeMapMod.BTreeNode.mk true false [120, 130, 140, 150, 160] [120, 130, 140, 150, 160] [], BTreeMapMod.BTreeNode.mk true false [180, 190, 200, 210, 220] [180, 190, 200, 210, 220] [], BTreeMapMod.BTreeNode.mk true false [240, 250, 260, 270, 280] [240, 250, 260, 270, 280] [], BTreeMapMod.BTreeNode.mk true false [300, 310, 320, 330, 340] [300, 310, 320, 330, 340] []], BTreeMapMod.BTreeNode.mk false false [410, 470, 530, 590, 650, 710] [410, 470, 530, 590, 650, 710] [BTreeMapMod.BTreeNode.mk true false [360, 370, 380, 390, 400] [360, 370, 380, 390, 400] [], BTreeMapMod.BTreeNode.mk true false [411, 412, 413, 414, 415, 416, 420, 430, 440, 450, 460] [411, 412, 413, 414, 415, 416, 420, 430, 440, 450, 460] [], BTreeMapMod.BTreeNode.mk true false [480, 490, 500, 510, 520] [480, 490, 500, 510, 520] [], BTreeMapMod.BTreeNode.mk true false [540, 550, 560, 570, 580] [540, 550, 560, 570, 580] [], BTreeMapMod.BTreeNode.mk true false [600, 610, 620, 630, 640] [600, 610, 620, 630, 640] [], BTreeMapMod.BTreeNode.mk true false [660, 670, 680, 690, 700] [660, 670, 680, 690, 700] [], BTreeMapMod.BTreeNode.mk true false [720, 730, 740, 750, 760, 770, 780, 790] [720, 730, 740, 750, 760, 770, 780, 790] []]], len := 86 }

set_option maxHeartbeats 1000000 in
/-- The state reached from base80st by the C2 fattening insertions
(certified by run_ops_opsFattenLeft). -/
def c2fatst : SBTreeMap := { root := BTreeMapMod.BTreeNode.mk false true [350] [350] [BTreeMapMod.BTreeNode.mk false false [5, 50, 110, 170, 230, 290] [5, 50, 110, 170, 230, 290] [BTreeMapMod.BTreeNode.mk true false [0, 1, 2, 3, 4] [0, 1, 2, 3, 4] [], BTreeMapMod.BTreeNode.mk true false [6, 7, 10, 20, 30, 40] [6, 7, 10, 20, 30, 40] [], BTreeMapMod.BTreeNode.mk true false [60, 70, 80, 90, 100] [60, 70, 80, 90, 100] [], BTreeMapMod.BTreeNode.mk true false [120, 130, 140, 150, 160] [120, 130, 140, 150, 160] [], BTreeMapMod.BTreeNode.mk true false [180, 190, 200, 210, 220] [180, 190, 200, 210, 220] [], BTreeMapMod.BTreeNode.mk true false [240, 241, 242, 243, 244, 245, 246, 250, 260, 270, 280] [240, 241, 242, 243, 244, 245, 246, 250, 260, 270, 280] [], BTreeMapMod.BTreeNode.mk true false [300, 310, 320, 330, 340] [300, 310, 320, 330, 340] []], BTreeMapMod.BTreeNode.mk false false [410, 470, 530, 590, 650, 710] [410, 470, 530, 590, 650, 710] [BTreeMapMod.BTreeNode.mk true false [360, 370, 380, 390, 400] [360, 370, 380, 390, 400] [], BTreeMapMod.BTreeNode.mk true false [420, 430, 440, 450, 460] [420, 430, 440, 450, 460] [], BTreeMapMod.BTreeNode.mk true false [480, 490, 500, 510, 520] [480, 490, 500, 510, 520] [], BTreeMapMod.BTreeNode.mk true false [540, 550, 560, 570, 580] [540, 550, 560, 570, 580] [], BTreeMapMod.BTreeNode.mk true false [600, 610, 620, 630, 640] [600, 610, 620, 630, 640] [], BTreeMapMod.BTreeNode.mk true false [660, 670, 680, 690, 700] [660, 670, 680, 690, 700] [], BTreeMapMod.BTreeNode.mk true false [720, 730, 740, 750, 760, 770, 780, 790] [720, 730, 740, 750, 760, 770, 780, 790] []]], len := 93 }

set_option maxHeartbeats 1000000 in
/-- The state reached from base80st by opsC3tail (certified by
run_ops_opsC3tail): the merged leaf holds 16 keys. -/
def c3finalst : SBTreeMap := { root := BTreeMapMod.BTreeNode.mk false true [360] [360] [BTreeMapMod.BTreeNode.mk false false [50, 110, 170, 230, 290] [50, 110, 170, 230, 290] [BTreeMapMod.BTreeNode.mk true false [0, 10, 20, 30, 40] [0, 10, 20, 30, 40] [], BTreeMapMod.BTreeNode.mk true false [60, 70, 80, 90, 100] [60, 70, 80, 90, 100] [], BTreeMapMod.BTreeNode.mk true false [120, 130, 140, 150, 160] [120, 130, 140, 150, 160] [], BTreeMapMod.BTreeNode.mk true false [180, 190, 200, 210, 220] [180, 190, 200, 210, 220] [], BTreeMapMod.BTreeNode.mk true false [240, 250, 260, 270, 280] [240, 250, 260, 270, 280] [], BTreeMapMod.BTreeNode.mk true false [300, 310, 320, 330, 340] [300, 310, 320, 330, 340] []], BTreeMapMod.BTreeNode.mk false false [470, 530, 590, 650, 710] [470, 530, 590, 650, 710] [BTreeMapMod.BTreeNode.mk true false [370, 380, 390, 400, 410, 411, 412, 413, 414, 415, 416, 420, 430, 440, 450, 460] [370, 380, 390, 400, 410, 411, 412, 413, 414, 415, 416, 420, 430, 440, 450, 460] [], BTreeMapMod.BTreeNode.mk true false [480, 490, 500, 510, 520] [480, 490, 500, 510, 520] [], BTreeMapMod.BTreeNode.mk true false [540, 550, 560, 570, 580] [540, 550, 560, 570, 580] [], BTreeMapMod.BTreeNode.mk true false [600, 610, 620, 630, 640] [600, 610, 620, 630, 640] [], BTreeMapMod.BTreeNode.mk true false [660, 670, 680, 690, 700] [660, 670, 680, 690, 700] [], BTreeMapMod.BTreeNode.mk true false [720, 730, 740, 750, 760, 770, 780, 790] [720, 730, 740, 750, 760, 770, 780, 790] []]], len := 85 }

set_option maxHeartbeats 1000000 in
/-- The state reached from base80st by opsC2tail (certified by
run_ops_opsC2tail): the root key 270 is smaller than keys remaining in its
left subtree. -/
def c2finalst : SBTreeMap := { root := BTreeMapMod.BTreeNode.mk false true [270] [270] [BTreeMapMod.BTreeNode.mk false false [5, 50, 110, 170, 230, 280] [5, 50, 110, 170, 230, 280] [BTreeMapMod.BTreeNode.mk true false [0, 1, 2, 3, 4] [0, 1, 2, 3, 4] [], BTreeMapMod.BTreeNode.mk true false [6, 7, 10, 20, 30, 40] [6, 7, 10, 20, 30, 40] [], BTreeMapMod.BTreeNode.mk true false [60, 70, 80, 90, 100] [60, 70, 80, 90, 100] [], BTreeMapMod.BTreeNode.mk true false [120, 130, 140, 150, 160] [120, 130, 140, 150, 160] [], BTreeMapMod.BTreeNode.mk true false [180, 190, 200, 210, 220] [180, 190, 200, 210, 220] [], BTreeMapMod.BTreeNode.mk true false [240, 241, 242, 243, 244, 245, 246, 250, 260] [240, 241, 242, 243, 244, 245, 246, 250, 260] [], BTreeMapMod.BTreeNode.mk true false [290, 300, 310, 320, 330, 340] [290, 300, 310, 320, 330, 340] []], BTreeMapMod.BTreeNode.mk false false [410, 470, 530, 590, 650, 710] [410, 470, 530, 590, 650, 710] [BTreeMapMod.BTreeNode.mk true false [360, 370, 380, 390, 400] [360, 370, 380, 390, 400] [], BTreeMapMod.BTreeNode.mk true false [420, 430, 440, 450, 460] [420, 430, 440, 450, 460] [], BTreeMapMod.BTreeNode.mk true false [480, 490, 500, 510, 520] [480, 490, 500, 510, 520] [], BTreeMapMod.BTreeNode.mk true false [540, 550, 560, 570, 580] [540, 550, 560, 570, 580] [], BTreeMapMod.BTreeNode.mk true false [600, 610, 620, 630, 640] [600, 610, 620, 630, 640] [], BTreeMapMod.BTreeNode.mk true false [660, 670, 680, 690, 700] [660, 670, 680, 690, 700] [], BTreeMapMod.BTreeNode.mk true false [720, 730, 740, 750, 760, 770, 780, 790] [720, 730, 740, 750, 760, 770, 780, 790] []]], len := 92 }

end BTreeMapMod

-- ===== allocator definitions below =====

/-!
# The segregated free-list allocator of `src/mem/allocator.rs`

Shallow embedding of `MemBox<StableMemoryAllocator>`.  The membox layer the
allocator is built on (`mem/membox/common.rs`: headers, `get_meta`,
`get_neighbor`, `split`, `merge_with_neighbor`, the raw byte primitives) is
not under src/, so it is modelled from the spec's Block Layer description:

* a block ("membox") is a payload `size`, an `allocated` flag and the
  payload bytes; per block a fixed `ovh` bytes of header overhead exist
  around the payload ("Overhead bytes exist on both ends of the payload"),
* the heap is the list of blocks in address order, tiling the region from
  `base` (the end of the allocator's own header box) to
  `pages * pageSize`; a block's offset is `base` plus the total sizes of
  the blocks before it, and its physical neighbors are the adjacent list
  entries ("given any block's offset, its immediate left and right physical
  neighbors can be located"),
* `split` cuts a block in two when the remainder can hold a minimal block,
  `merge_with_neighbor` joins two adjacent blocks into one of size
  `size1 + ovh + size2`,
* the intrusive doubly-linked free lists threaded through free-block
  payloads (`prev_free`/`next_free` with an `EMPTY` sentinel) are
  represented per segregation class as the Lean list of block offsets in
  chain order, head first; unlinking a block (`eject_from_freelist`) is
  `List.erase`, linking at the head is consing.

The numeric constants (`pageSize`, the minimal block size, the overhead)
are fields of the state so that theorems hold for all their values; the
claims do not depend on them.
-/

namespace MemAlloc

/-- `SEG_CLASS_PTRS_COUNT = Size::BITS - 4` (usize is 32-bit on the wasm
target). -/
def SEG_CLASS_PTRS_COUNT : Nat := 28

/-- A membox: payload size in bytes, allocation flag, payload bytes. -/
structure MemBoxB where
  size : Nat
  allocated : Bool
  data : List Nat
deriving DecidableEq

instance : Inhabited MemBoxB := ⟨⟨0, true, []⟩⟩

instance : DecidableEq (Except Unit Nat) := fun
  | .error (), .error () => isTrue rfl
  | .error (), .ok _ => isFalse (fun h => Except.noConfusion h)
  | .ok _, .error () => isFalse (fun h => Except.noConfusion h)
  | .ok a, .ok b =>
    if h : a = b then isTrue (by rw [h]) else isFalse (fun hh => h (Except.ok.inj hh))

/-- The allocator state: configuration constants, grown page count, the
blocks in address order, the per-class free lists (offsets, head first) and
the two counters kept in the allocator header. -/
structure SMA where
  base : Nat
  ovh : Nat
  minSize : Nat
  pageSize : Nat
  maxPages : Nat
  pages : Nat
  heap : List MemBoxB
  seg : List (List Nat)
  allocatedSize : Nat
  freeSize : Nat
deriving DecidableEq

/-- Floor base-2 logarithm, by structural recursion (`utils::math::fast_log2`;
source not under src/). -/
def log2fuel : Nat → Nat → Nat
  | 0, _ => 0
  | f + 1, n => if n ≤ 1 then 0 else log2fuel f (n / 2) + 1

/-- `fast_log2(size)`. -/
def fast_log2 (n : Nat) : Nat := log2fuel n n

/-- `get_seg_class_id(size)` from src/mem/allocator.rs: ceiling log2, with
classes 0..3 collapsed into class 0. -/
def get_seg_class_id (size : Nat) : Nat :=
  let log := fast_log2 size
  let log := if 2 ^ log < size then log + 1 else log
  if log > 3 then log - 4 else 0

/-- The free list of one segregation class. -/
def classList (s : SMA) (id : Nat) : List Nat := (s.seg[id]?).getD []

/-- Index of the block whose offset is `ptr` (offsets are derived from the
tiling: `base` plus the total sizes of the preceding blocks). -/
def idxPtr (base ovh : Nat) : List MemBoxB → Nat → Option Nat
  | [], _ => none
  | b :: bs, ptr =>
    if ptr = base then some 0
    else (idxPtr (base + ovh + b.size) ovh bs ptr).map (· + 1)

/-- Offset of the block at index `i`. -/
def offAt (base ovh : Nat) : List MemBoxB → Nat → Nat
  | [], _ => base
  | _, 0 => base
  | b :: bs, i + 1 => offAt (base + ovh + b.size) ovh bs i

def findIdx (s : SMA) (ptr : Nat) : Option Nat := idxPtr s.base s.ovh s.heap ptr

def ptrAt (s : SMA) (i : Nat) : Nat := offAt s.base s.ovh s.heap i

/-- `MemBox::from_ptr(ptr, Side::Start)` at the model level. -/
def findBox (s : SMA) (ptr : Nat) : Option MemBoxB :=
  (findIdx s ptr).bind fun i => s.heap[i]?

def setHeapAt (s : SMA) (i : Nat) (b : MemBoxB) : SMA :=
  { s with heap := s.heap.set i b }

/-- `eject_from_freelist(seg_class_id, membox)` from src/mem/allocator.rs:
unlink the block from the doubly-linked list of its class (modelled as
erasing its offset from the class's offset list). -/
def eject_from_freelist (s : SMA) (id : Nat) (ptr : Nat) : SMA :=
  { s with seg := s.seg.set id ((classList s id).erase ptr) }

/-- Cons a block offset at the head of a class list
(`set_seg_class_head` plus the prev/next pointer wiring). -/
def consClassHead (s : SMA) (id : Nat) (ptr : Nat) : SMA :=
  { s with seg := s.seg.set id (ptr :: classList s id) }

/-- Merge the block at index `i` with the one at `i + 1`
(`merge_with_neighbor`, modelled from the spec): one free block whose
payload also swallows the boundary overhead. -/
def mergeAt (s : SMA) (i : Nat) : SMA :=
  match s.heap[i]?, s.heap[i + 1]? with
  | some b1, some b2 =>
    let merged : MemBoxB :=
      ⟨b1.size + s.ovh + b2.size, false, List.replicate (b1.size + s.ovh + b2.size) 0⟩
    { s with heap := s.heap.take i ++ [merged] ++ s.heap.drop (i + 2) }
  | _, _ => s

/-- `maybe_merge_with_free_neighbors(membox)` from src/mem/allocator.rs:
merge with the previous physical neighbor when free (ejecting it from its
free list first), then with the next one.  Takes and returns the block's
heap index. -/
def maybe_merge_with_free_neighbors (s : SMA) (i : Nat) : SMA × Nat :=
  let (s, i) :=
    match i with
    | 0 => (s, i)
    | i' + 1 =>
      match s.heap[i']? with
      | none => (s, i)
      | some prev =>
        if prev.allocated then (s, i)
        else
          let s := eject_from_freelist s (get_seg_class_id prev.size) (ptrAt s i')
          (mergeAt s i', i')
  match s.heap[i + 1]? with
  | none => (s, i)
  | some next =>
    if next.allocated then (s, i)
    else
      let s := eject_from_freelist s (get_seg_class_id next.size) (ptrAt s (i + 1))
      (mergeAt s i, i)

/-- `push_free_membox(membox)` from src/mem/allocator.rs: merge with free
neighbors, then insert the result at the head of the free list of its
class.  Takes the block's heap index. -/
def push_free_membox (s : SMA) (i : Nat) : SMA :=
  let p := maybe_merge_with_free_neighbors s i
  match p.1.heap[p.2]? with
  | none => p.1
  | some b => consClassHead p.1 (get_seg_class_id b.size) (ptrAt p.1 p.2)

/-- The first loop of `pop_allocated_membox`: walk the ideal class's free
list until a block of sufficient size is found.  `none` is a panicking
`unwrap()` on a dangling pointer; `some none` means the chain is
exhausted. -/
def search_seg_class (s : SMA) (size : Nat) : List Nat → Option (Option Nat)
  | [] => some none
  | ptr :: rest =>
    match findBox s ptr with
    | none => none
    | some b => if size ≤ b.size then some (some ptr) else search_seg_class s size rest

/-- The second loop of `pop_allocated_membox`: visit classes
`id, id+1, ...`, loading each head into the carried option, and stop early
when a head is large enough.  Returns the final `(seg_class_id,
free_membox_opt)` pair exactly as the source leaves them.  `none` is a
panicking `unwrap()`. -/
def search_larger (s : SMA) (size : Nat) : Nat → Nat → Option Nat → Option (Nat × Option Nat)
  | 0, id, cur => some (id, cur)
  | fuel + 1, id, cur =>
    if SEG_CLASS_PTRS_COUNT ≤ id then some (id, cur)
    else
      match (classList s id).head? with
      | none => search_larger s size fuel (id + 1) none
      | some ptr =>
        match findBox s ptr with
        | none => none
        | some b =>
          if size ≤ b.size then some (id, some ptr)
          else search_larger s size fuel (id + 1) (some ptr)

/-- `membox.split(size)` (modelled from the spec: split when the remainder
can hold a minimal block behind its own header; the front piece keeps the
payload prefix).  `none` is the `Err(self)` case. -/
def split_membox (s : SMA) (i : Nat) (size : Nat) : Option SMA :=
  match s.heap[i]? with
  | none => none
  | some b =>
    if size + s.ovh + s.minSize ≤ b.size then
      let front : MemBoxB := ⟨size, b.allocated, b.data.take size⟩
      let back : MemBoxB :=
        ⟨b.size - size - s.ovh, false, List.replicate (b.size - size - s.ovh) 0⟩
      some { s with heap := s.heap.take i ++ [front, back] ++ s.heap.drop (i + 1) }
    else none

/-- Mark the block at index `i` allocated (`set_allocated(true)`). -/
def setAllocatedAt (s : SMA) (i : Nat) (a : Bool) : SMA :=
  match s.heap[i]? with
  | none => s
  | some b => setHeapAt s i ⟨b.size, a, b.data⟩

/-- `pop_allocated_membox(size)` from src/mem/allocator.rs.  Result:
`none` = a panicking `unwrap()`, `some (s, .error ())` = `OutOfMemory`
(state unchanged up to that point, as in the source where `stable::grow` is
the first effect of the growth branch), `some (s, .ok ptr)` = the chosen
block, marked allocated. -/
def pop_allocated_membox (s : SMA) (size : Nat) : Option (SMA × Except Unit Nat) :=
  let id := get_seg_class_id size
  match search_seg_class s size (classList s id) with
  | none => none
  | some (some ptr) =>
    let s := eject_from_freelist s id ptr
    match findIdx s ptr with
    | none => none
    | some i => some (setAllocatedAt s i true, .ok ptr)
  | some none =>
    match search_larger s size SEG_CLASS_PTRS_COUNT (id + 1) none with
    | none => none
    | some (lid, some ptr) =>
      let s := eject_from_freelist s lid ptr
      match findIdx s ptr with
      | none => none
      | some i =>
        match split_membox s i size with
        | some s =>
          let s := setAllocatedAt s i true
          some (push_free_membox s (i + 1), .ok ptr)
        | none => some (setAllocatedAt s i true, .ok ptr)
    | some (_, none) =>
      let pages_to_grow := size / s.pageSize + 1
      if s.maxPages < s.pages + pages_to_grow then some (s, .error ())
      else
        let newBox : MemBoxB :=
          ⟨pages_to_grow * s.pageSize - s.ovh, false,
           List.replicate (pages_to_grow * s.pageSize - s.ovh) 0⟩
        let i := s.heap.length
        let s := { s with pages := s.pages + pages_to_grow,
                          heap := s.heap ++ [newBox],
                          freeSize := s.freeSize + newBox.size }
        let ptr := ptrAt s i
        match split_membox s i size with
        | some s =>
          let s := setAllocatedAt s i true
          some (push_free_membox s (i + 1), .ok ptr)
        | none => some (setAllocatedAt s i true, .ok ptr)

/-- `allocate(size)` from src/mem/allocator.rs: clamp to the minimal block
size, pop a block, book the size counters. -/
def allocate (s : SMA) (size : Nat) : Option (SMA × Except Unit Nat) :=
  let size := if size < s.minSize then s.minSize else size
  match pop_allocated_membox s size with
  | none => none
  | some (s, .error e) => some (s, .error e)
  | some (s, .ok ptr) =>
    match findBox s ptr with
    | none => none
    | some b =>
      some ({ s with freeSize := s.freeSize - b.size,
                     allocatedSize := s.allocatedSize + b.size }, .ok ptr)

/-- `deallocate(membox)` from src/mem/allocator.rs.  `assert_allocated(true)`
halts (`none`) when the block is already free; otherwise the block is marked
free, the counters are booked, and the block is pushed onto its free list
(merging with free neighbors first). -/
def deallocate (s : SMA) (ptr : Nat) : Option SMA :=
  match findIdx s ptr with
  | none => none
  | some i =>
    match s.heap[i]? with
    | none => none
    | some b =>
      if !b.allocated then none
      else
        let s := { s with freeSize := s.freeSize + b.size,
                          allocatedSize := s.allocatedSize - b.size }
        let s := setAllocatedAt s i false
        some (push_free_membox s i)

/-- `reallocate(membox, new_size)` from src/mem/allocator.rs: read the whole
payload, deallocate, allocate `new_size`, write the saved payload into the
new block (`_write_bytes` panics when the buffer exceeds the payload,
modelled from the spec). -/
def reallocate (s : SMA) (ptr : Nat) (new_size : Nat) : Option (SMA × Except Unit Nat) :=
  match findBox s ptr with
  | none => none
  | some b =>
    let data := b.data
    match deallocate s ptr with
    | none => none
    | some s1 =>
      match allocate s1 new_size with
      | none => none
      | some (s2, .error e) => some (s2, .error e)
      | some (s2, .ok np) =>
        match findIdx s2 np with
        | none => none
        | some i =>
          match s2.heap[i]? with
          | none => none
          | some nb =>
            if nb.size < data.length then none
            else
              some (setHeapAt s2 i ⟨nb.size, nb.allocated,
                data ++ nb.data.drop data.length⟩, .ok np)

/-- The state `MemBox::<StableMemoryAllocator>::init` + `reset` leave behind
when one page is grown first (as the repository's tests do): a single free
block covering the page behind the allocator header, registered in its
class. -/
def SMA.init (base ovh minSize pageSize maxPages : Nat) : SMA :=
  let sz := pageSize - base - ovh
  { base := base, ovh := ovh, minSize := minSize, pageSize := pageSize,
    maxPages := maxPages, pages := 1,
    heap := [⟨sz, false, List.replicate sz 0⟩],
    seg := (List.replicate SEG_CLASS_PTRS_COUNT ([] : List Nat)).set
      (get_seg_class_id sz) [base],
    allocatedSize := 0, freeSize := sz }

/-- An operation against the allocator. -/
inductive AllocOp : Type where
  | alloc (size : Nat)
  | dealloc (ptr : Nat)
  | realloc (ptr : Nat) (size : Nat)

/-- Run a list of operations; `OutOfMemory` results keep the (possibly
mutated) state and continue, a panic aborts. -/
def runAlloc (s : SMA) : List AllocOp → Option SMA
  | [] => some s
  | .alloc sz :: ops =>
    match allocate s sz with
    | none => none
    | some (s2, _) => runAlloc s2 ops
  | .dealloc p :: ops =>
    match deallocate s p with
    | none => none
    | some s2 => runAlloc s2 ops
  | .realloc p sz :: ops =>
    match reallocate s p sz with
    | none => none
    | some (s2, _) => runAlloc s2 ops

/-- No two physically adjacent blocks are both free. -/
def adjacentOK : List MemBoxB → Bool
  | [] => true
  | [_] => true
  | b1 :: b2 :: rest =>
    (b1.allocated || b2.allocated) && adjacentOK (b2 :: rest)

/-- The free lists are sound: every listed offset resolves to a free block
whose size belongs to that class, and no offset is listed twice. -/
def segOK (s : SMA) : Bool :=
  ((List.range SEG_CLASS_PTRS_COUNT).all fun id =>
    (classList s id).all fun ptr =>
      match findBox s ptr with
      | none => false
      | some b => !b.allocated && (get_seg_class_id b.size == id)) &&
  decide (s.seg.flatten.Nodup)

/-- Spec-side first-fit: the first offset in the list whose block resolves
and has size at least `size` ("the first block encountered whose
size >= requested"). -/
def fits (s : SMA) (size ptr : Nat) : Bool :=
  match findBox s ptr with
  | none => false
  | some b => size ≤ b.size

/-- Spec-side first-fit search of one free list. -/
def firstFit (s : SMA) (size : Nat) (l : List Nat) : Option Nat :=
  l.find? (fits s size)

/-- The C6 scenario: allocate a 16-byte block, then reallocate it to 100
bytes on a one-page heap that cannot grow.  Records whether the reallocate
ended in OutOfMemory and, at the block's original offset, the allocation
flag afterwards. -/
def c6scenario : Option (Bool × Option Bool) :=
  let s0 := SMA.init 8 8 8 64 1
  match allocate s0 16 with
  | some (s1, .ok ptr) =>
    match reallocate s1 ptr 100 with
    | some (s2, .error _) => some (true, (findBox s2 ptr).map (fun b => b.allocated))
    | _ => some (false, none)
  | _ => none

/-- A small well-formed allocator state: one free 100-byte block,
registered in its class (class 3). -/
def c7w : SMA :=
  { base := 8, ovh := 8, minSize := 8, pageSize := 64, maxPages := 10,
    pages := 1, heap := [⟨100, false, List.replicate 100 0⟩],
    seg := (List.replicate SEG_CLASS_PTRS_COUNT ([] : List Nat)).set 3 [8],
    allocatedSize := 0, freeSize := 100 }

/-- The state after `allocate 16` on a fresh allocator (ideal 64-byte page,
8-byte overhead): the 16-byte block at offset 8, the 24-byte split
remainder free at offset 32 in class 1. -/
def c4w1 : SMA :=
  { base := 8, ovh := 8, minSize := 8, pageSize := 64, maxPages := 10,
    pages := 1, heap := [⟨16, true, List.replicate 16 0⟩, ⟨24, false, List.replicate 24 0⟩],
    seg := (List.replicate SEG_CLASS_PTRS_COUNT ([] : List Nat)).set 1 [32],
    allocatedSize := 16, freeSize := 32 }

/-- The state `reallocate c4w1 8 100` ends in: the old block merged into a
free 48-byte block at offset 8 (class 2), the relocated 100-byte block at
offset 64 in the grown region, and the 12-byte split remainder free at
offset 172 (class 0). -/
def c4w2 : SMA :=
  { base := 8, ovh := 8, minSize := 8, pageSize := 64, maxPages := 10,
    pages := 3,
    heap := [⟨48, false, List.replicate 48 0⟩, ⟨100, true, List.replicate 100 0⟩,
             ⟨12, false, List.replicate 12 0⟩],
    seg := ((List.replicate SEG_CLASS_PTRS_COUNT ([] : List Nat)).set 0 [172]).set 2 [8],
    allocatedSize := 100, freeSize := 68 }

end MemAlloc


/-
The legacy allocator of src/src/stable_memory_allocator.rs.  The MemBlock
layer (mem_block.rs) and the constants of types.rs are absent from src/ and
are modelled from the spec: blocks carry overhead on BOTH ends
(`MEM_BLOCK_OVERHEAD_BYTES` on each side, so neighbors step by
`size + 2 * ovh`), block offsets are derived from the tiling, and the
doubly-linked free list of a segregation class is modelled as the list of
its block offsets in chain order.  `MAX_SEGREGATION_CLASSES` and
`MIN_MEM_BLOCK_SIZE_BYTES` are parameters (`maxClasses` fixed at 28,
`minSize` a field), `fast_log2_32` is the floor base-2 logarithm.
-/
namespace SMAL

open MemAlloc (MemBoxB fast_log2 idxPtr offAt)

def MAX_SEGREGATION_CLASSES : Nat := 28

/-- The legacy allocator state (`StableMemoryAllocator`):
`seg` is `segregation_size_classes` with each doubly-linked chain spelled
out as its offset list in chain order. -/
structure SMALState where
  base : Nat
  ovh : Nat
  minSize : Nat
  pageSize : Nat
  maxPages : Nat
  pages : Nat
  heap : List MemBoxB
  seg : List (List Nat)
deriving DecidableEq

/-- `find_seg_class_idx(block_size_bytes)` from
src/src/stable_memory_allocator.rs: floor log2, classes up to 3 collapsed
into class 0. -/
def find_seg_class_idx (size : Nat) : Nat :=
  let log := fast_log2 size
  if log > 3 then log - 4 else 0

def classListL (s : SMALState) (idx : Nat) : List Nat := (s.seg[idx]?).getD []

def findIdxL (s : SMALState) (ptr : Nat) : Option Nat :=
  idxPtr s.base (2 * s.ovh) s.heap ptr

def ptrAtL (s : SMALState) (i : Nat) : Nat := offAt s.base (2 * s.ovh) s.heap i

/-- `MemBlock::read_at(ptr, Side::Start)` at the model level. -/
def findBoxL (s : SMALState) (ptr : Nat) : Option MemBoxB :=
  (findIdxL s ptr).bind fun i => s.heap[i]?

def setAllocatedAtL (s : SMALState) (i : Nat) (a : Bool) : SMALState :=
  match s.heap[i]? with
  | none => s
  | some b => { s with heap := s.heap.set i ⟨b.size, a, b.data⟩ }

/-- The walking loop of `add_block_to_free_list`: `cur` and `next` are the
two adjacent chain members in hand, `rest` the remainder of the chain.
Insert `p` between them when `addr(cur) < addr(p) < addr(next)`, append
after `next` when the chain ends, otherwise advance. -/
def insertLoop (p cur next : Nat) : List Nat → List Nat
  | [] =>
    if cur < p ∧ p < next then cur :: p :: next :: []
    else cur :: next :: [p]
  | n2 :: rest =>
    if cur < p ∧ p < next then cur :: p :: next :: n2 :: rest
    else cur :: insertLoop p next n2 rest

/-- `add_block_to_free_list` on one class chain: empty chain starts one;
an offset below the head is inserted before it; a single-member chain gets
the block appended; otherwise the loop walks to the address-sorted spot. -/
def addToClassList (p : Nat) : List Nat → List Nat
  | [] => [p]
  | c :: rest =>
    if p < c then p :: c :: rest
    else
      match rest with
      | [] => [c, p]
      | n :: rest2 => insertLoop p c n rest2

/-- `add_block_to_free_list(new_mem_block)` from
src/src/stable_memory_allocator.rs: place the block in the class of its
size, at its address-sorted position in the chain. -/
def add_block_to_free_list (s : SMALState) (p : Nat) (size : Nat) : SMALState :=
  let idx := find_seg_class_idx size
  { s with seg := s.seg.set idx (addToClassList p (classListL s idx)) }

/-- `remove_block_from_free_list(mem_block, seg_class_idx)`: the prev/next
unlink (and head update) erase the offset from the class chain. -/
def remove_block_from_free_list (s : SMALState) (idx : Nat) (p : Nat) : SMALState :=
  { s with seg := s.seg.set idx ((classListL s idx).erase p) }

/-- `mem_block.merge_with(next)` (mem_block.rs absent from src/, modelled
from the spec): one free block whose payload swallows the two boundary
overheads; the front payload stays in place. -/
def mergeAtL (s : SMALState) (i : Nat) : SMALState :=
  match s.heap[i]?, s.heap[i + 1]? with
  | some b1, some b2 =>
    let sz := b1.size + 2 * s.ovh + b2.size
    let nh := s.heap.take i ++
      [⟨sz, false, b1.data ++ List.replicate (2 * s.ovh + b2.size) 0⟩] ++
      s.heap.drop (i + 2)
    { s with heap := nh }
  | _, _ => s

/-- `try_merge(mem_block, Side::Start)`: merge with the next physical
neighbor when free, first merging that neighbor with its own next chain
(the recursion of the source), removing it from the free list of its
(current) size class.  Structural fuel bounds the recursion. -/
def try_merge_start (fuel : Nat) (s : SMALState) (i : Nat) : SMALState :=
  match fuel with
  | 0 => s
  | fuel + 1 =>
    match s.heap[i + 1]? with
    | none => s
    | some nb =>
      if nb.allocated then s
      else
        let s1 := try_merge_start fuel s (i + 1)
        match s1.heap[i + 1]? with
        | none => s1
        | some nb1 =>
          mergeAtL (remove_block_from_free_list s1 (find_seg_class_idx nb1.size)
            (ptrAtL s1 (i + 1))) i

/-- `try_merge(mem_block, Side::End)`: merge with the previous physical
neighbor when free, first merging that neighbor with its own previous
chain; returns the block's new heap index. -/
def try_merge_end (fuel : Nat) (s : SMALState) (i : Nat) : SMALState × Nat :=
  match fuel with
  | 0 => (s, i)
  | fuel + 1 =>
    match i with
    | 0 => (s, i)
    | j + 1 =>
      match s.heap[j]? with
      | none => (s, j + 1)
      | some pb =>
        if pb.allocated then (s, j + 1)
        else
          let p := try_merge_end fuel s j
          match p.1.heap[p.2]? with
          | none => (p.1, j + 1)
          | some pb1 =>
            (mergeAtL (remove_block_from_free_list p.1 (find_seg_class_idx pb1.size)
              (ptrAtL p.1 p.2)) p.2, p.2)

/-- `split_if_needed(mem_block, size)`: when the surplus reaches the
minimal block size, split; the remainder (its payload net of the two
boundary overheads, spec-modelled geometry) goes to its free list. -/
def split_if_needed (s : SMALState) (i : Nat) (size : Nat) : SMALState :=
  match s.heap[i]? with
  | none => s
  | some b =>
    if s.minSize ≤ b.size - size then
      let backsz := b.size - size - 2 * s.ovh
      let nh := s.heap.take i ++
        [⟨size, b.allocated, b.data.take size⟩, ⟨backsz, false, List.replicate backsz 0⟩] ++
        s.heap.drop (i + 1)
      let s1 := { s with heap := nh }
      add_block_to_free_list s1 (ptrAtL s1 (i + 1)) backsz
    else s

/-- Loop 1 of `find_appropriate_free_mem_block`: first block of the chain
whose size fits; returns it, its size and the remaining chain.  `none` is
a panicking unwrap, `some none` means no fit in this class. -/
def findFirstFit (s : SMALState) (size : Nat) : List Nat → Option (Option (Nat × Nat × List Nat))
  | [] => some none
  | q :: rest =>
    match findBoxL s q with
    | none => none
    | some bq =>
      if size ≤ bq.size then some (some (q, bq.size, rest)) else findFirstFit s size rest

/-- Loop 2 of `find_appropriate_free_mem_block`: walk the remainder of the
chain, replacing the candidate whenever a fitting block sits strictly
closer to the requested size. -/
def bestFitLoop (s : SMALState) (size : Nat) : List Nat → Nat × Nat → Option (Nat × Nat)
  | [], best => some best
  | q :: rest, best =>
    match findBoxL s q with
    | none => none
    | some bq =>
      if bq.size < size then bestFitLoop s size rest best
      else if best.2 - size > bq.size - size then bestFitLoop s size rest (q, bq.size)
      else bestFitLoop s size rest best

/-- One class of `find_appropriate_free_mem_block`. -/
def find_in_class (s : SMALState) (size : Nat) (l : List Nat) : Option (Option Nat) :=
  match findFirstFit s size l with
  | none => none
  | some none => some none
  | some (some (p, ps, rest)) =>
    (bestFitLoop s size rest (p, ps)).map fun b => some b.1

/-- The class loop of `find_appropriate_free_mem_block`: visits every
class from the ideal one up, never breaking, so a later (larger) class
with a fit overwrites the result. -/
def findApprLoop (s : SMALState) (size : Nat) :
    Nat → Nat → Option (Nat × Nat) → Option (Option (Nat × Nat))
  | 0, _, res => some res
  | fuel + 1, idx, res =>
    if MAX_SEGREGATION_CLASSES ≤ idx then some res
    else
      match find_in_class s size (classListL s idx) with
      | none => none
      | some none => findApprLoop s size fuel (idx + 1) res
      | some (some p) => findApprLoop s size fuel (idx + 1) (some (p, idx))

/-- `find_appropriate_free_mem_block(size)` from
src/src/stable_memory_allocator.rs. -/
def find_appropriate_free_mem_block (s : SMALState) (size : Nat) :
    Option (Option (Nat × Nat)) :=
  findApprLoop s size MAX_SEGREGATION_CLASSES (find_seg_class_idx size) none

/-- `allocate(size)` from src/src/stable_memory_allocator.rs: take the
found block out of its class, split if needed, mark allocated; otherwise
grow by enough pages for `size + 2 * ovh` and carve from the grown
region.  `some (s, .error ())` is `Err(OutOfMemory)`. -/
def allocate (s : SMALState) (size : Nat) : Option (SMALState × Except Unit Nat) :=
  match find_appropriate_free_mem_block s size with
  | none => none
  | some (some (p, idx)) =>
    match findIdxL s p with
    | none => none
    | some i =>
      let s1 := remove_block_from_free_list s idx p
      let s2 := split_if_needed s1 i size
      some (setAllocatedAtL s2 i true, .ok p)
  | some none =>
    let need := size + 2 * s.ovh
    let pages_to_grow := if need % s.pageSize > 0 then need / s.pageSize + 1
      else need / s.pageSize
    if s.maxPages < s.pages + pages_to_grow then some (s, .error ())
    else
      let bsz := pages_to_grow * s.pageSize - 2 * s.ovh
      let i := s.heap.length
      let s1 := { s with pages := s.pages + pages_to_grow,
                         heap := s.heap ++ [⟨bsz, false, List.replicate bsz 0⟩] }
      let p := ptrAtL s1 i
      let s2 := split_if_needed s1 i size
      some (setAllocatedAtL s2 i true, .ok p)

/-- `deallocate(offset)` from src/src/stable_memory_allocator.rs: the
explicit `unreachable!()` on a non-allocated block is the `none` outcome;
otherwise mark free, merge towards both sides, insert into the free list
of the merged size. -/
def deallocate (s : SMALState) (off : Nat) : Option SMALState :=
  match findIdxL s off with
  | none => none
  | some i =>
    match s.heap[i]? with
    | none => none
    | some b =>
      if !b.allocated then none
      else
        let s1 := setAllocatedAtL s i false
        let p := try_merge_end s1.heap.length s1 i
        let s3 := try_merge_start p.1.heap.length p.1 p.2
        match s3.heap[p.2]? with
        | none => none
        | some b3 => some (add_block_to_free_list s3 (ptrAtL s3 p.2) b3.size)

/-- `reallocate(offset, wanted_size)` from
src/src/stable_memory_allocator.rs: early return on a sufficient block;
otherwise free the block, merge towards the next neighbor, and either
split-and-keep the same offset or fall back to
free-list-insert-then-allocate. -/
def reallocate (s : SMALState) (off wanted : Nat) : Option (SMALState × Except Unit Nat) :=
  match findIdxL s off with
  | none => none
  | some i =>
    match s.heap[i]? with
    | none => none
    | some b =>
      if wanted ≤ b.size then some (s, .ok off)
      else
        let s1 := setAllocatedAtL s i false
        let s2 := try_merge_start s1.heap.length s1 i
        match s2.heap[i]? with
        | none => none
        | some b2 =>
          if wanted ≤ b2.size then
            some (setAllocatedAtL (split_if_needed s2 i wanted) i true, .ok off)
          else
            allocate (add_block_to_free_list s2 off b2.size) wanted

/-- The state `init` leaves behind (spec-modelled like `MemAlloc.SMA.init`):
one free block covering the first page behind the allocator header,
registered in its class. -/
def SMALState.init (base ovh minSize pageSize maxPages : Nat) : SMALState :=
  let sz := pageSize - base - 2 * ovh
  { base := base, ovh := ovh, minSize := minSize, pageSize := pageSize,
    maxPages := maxPages, pages := 1,
    heap := [⟨sz, false, List.replicate sz 0⟩],
    seg := (List.replicate MAX_SEGREGATION_CLASSES ([] : List Nat)).set
      (find_seg_class_idx sz) [base] }

/-- An operation against the legacy allocator. -/
inductive AllocOpL : Type where
  | alloc (size : Nat)
  | dealloc (ptr : Nat)
  | realloc (ptr : Nat) (size : Nat)

/-- Run a list of operations; OutOfMemory keeps the state and continues,
a panic aborts. -/
def runAllocL (s : SMALState) : List AllocOpL → Option SMALState
  | [] => some s
  | .alloc sz :: ops =>
    match allocate s sz with
    | none => none
    | some (s2, _) => runAllocL s2 ops
  | .dealloc p :: ops =>
    match deallocate s p with
    | none => none
    | some s2 => runAllocL s2 ops
  | .realloc p sz :: ops =>
    match reallocate s p sz with
    | none => none
    | some (s2, _) => runAllocL s2 ops

/-- The C9 failing operation sequence. -/
def c9ops : List AllocOpL := [.alloc 8, .alloc 16, .dealloc 8, .realloc 32 90]

/-- The C8 counterexample state: three free 24-byte blocks at offsets 8,
48 and 88; the first and last are in their (class 0) free list, the middle
one is about to be inserted. -/
def c8L : SMALState :=
  { base := 8, ovh := 8, minSize := 8, pageSize := 64, maxPages := 10,
    pages := 2,
    heap := [⟨24, false, List.replicate 24 0⟩, ⟨24, false, List.replicate 24 0⟩,
             ⟨24, false, List.replicate 24 0⟩],
    seg := (List.replicate MAX_SEGREGATION_CLASSES ([] : List Nat)).set 0 [8, 88] }

/-- The C7 counterexample state: class 1 holds the free blocks at offsets
8 (40 bytes, a fit for 33) and 104 (36 bytes, the closer fit), class 5
holds the free block at offset 196 (600 bytes); allocated separators in
between. -/
def c7L : SMALState :=
  { base := 8, ovh := 8, minSize := 8, pageSize := 64, maxPages := 10,
    pages := 4,
    heap := [⟨40, false, List.replicate 40 0⟩, ⟨24, true, List.replicate 24 0⟩,
             ⟨36, false, List.replicate 36 0⟩, ⟨24, true, List.replicate 24 0⟩,
             ⟨600, false, List.replicate 600 0⟩],
    seg := ((List.replicate MAX_SEGREGATION_CLASSES ([] : List Nat)).set 1 [8, 104]).set
      5 [196] }

end SMAL

-- ===== theorems below =====

namespace BTreeMapMod

theorem beqNode_list_sound {f : Nat}
    (ih : ∀ a b : BTreeNode, beqNode f a b = true → a = b) :
    ∀ c1 c2 : List BTreeNode, c1.length = c2.length →
      ((c1.zip c2).all fun p => beqNode f p.1 p.2) = true → c1 = c2 := by
  intro c1
  induction c1 with
  | nil =>
    intro c2 hlen _
    cases c2 with
    | nil => rfl
    | cons y ys => simp at hlen
  | cons x xs ihl =>
    intro c2 hlen hall
    cases c2 with
    | nil => simp at hlen
    | cons y ys =>
      simp only [List.zip_cons_cons, List.all_cons, Bool.and_eq_true] at hall
      obtain ⟨hxy, hrest⟩ := hall
      rw [ih x y hxy, ihl ys (by simpa using hlen) hrest]

theorem beqNode_sound : ∀ {f : Nat} {a b : BTreeNode}, beqNode f a b = true → a = b := by
  intro f
  induction f with
  | zero =>
    intro a b h
    simp [beqNode] at h
  | succ f ih =>
    intro a b h
    cases a with
    | mk l1 r1 k1 v1 c1 =>
      cases b with
      | mk l2 r2 k2 v2 c2 =>
        simp only [beqNode, Bool.and_eq_true, beq_iff_eq, List.all_eq_true] at h
        obtain ⟨⟨⟨⟨⟨hl, hr⟩, hk⟩, hv⟩, hlen⟩, hall⟩ := h
        subst hl hr hk hv
        rw [beqNode_list_sound (fun a b hab => ih hab) c1 c2 hlen
          (List.all_eq_true.2 hall)]

theorem beqOS_sound (f : Nat) {a b : Option SBTreeMap}
    (h : beqOS f a b = true) : a = b := by
  cases a with
  | none =>
    cases b with
    | none => rfl
    | some b => simp [beqOS] at h
  | some a =>
    cases b with
    | none => simp [beqOS] at h
    | some b =>
      simp only [beqOS, Bool.and_eq_true, beq_iff_eq] at h
      obtain ⟨h1, h2⟩ := h
      cases a with
      | mk ra la =>
        cases b with
        | mk rb lb =>
          dsimp only at h1 h2
          rw [beqNode_sound h1, h2]

theorem run_ops_append (fuel : Nat) (m : SBTreeMap) (l1 l2 : List MapOp) :
    run_ops fuel m (l1 ++ l2) = (run_ops fuel m l1).bind fun m2 => run_ops fuel m2 l2 := by
  induction l1 generalizing m with
  | nil => rfl
  | cons op l1 ih =>
    cases op with
    | ins k v =>
      rw [List.cons_append, run_ops, run_ops]
      cases m.insert fuel k v with
      | none => rfl
      | some p => exact ih p.2
    | del k =>
      rw [List.cons_append, run_ops, run_ops]
      cases m.remove fuel k with
      | none => rfl
      | some p => exact ih p.2

set_option maxRecDepth 1000000 in
set_option maxHeartbeats 16000000 in
theorem run_ops_opsBase80 :
    run_ops 99 SBTreeMap.new opsBase80 = some base80st :=
  beqOS_sound 99 (by decide)

set_option maxRecDepth 1000000 in
set_option maxHeartbeats 16000000 in
theorem run_ops_opsFatten416 :
    run_ops 99 base80st opsFatten416 = some c3fatst :=
  beqOS_sound 99 (by decide)

set_option maxRecDepth 1000000 in
set_option maxHeartbeats 16000000 in
theorem run_ops_opsFattenLeft :
    run_ops 99 base80st opsFattenLeft = some c2fatst :=
  beqOS_sound 99 (by decide)

set_option maxRecDepth 1000000 in
set_option maxHeartbeats 16000000 in
theorem run_del_c3 :
    run_ops 99 c3fatst [MapOp.del 350] = some c3finalst :=
  beqOS_sound 99 (by decide)

set_option maxRecDepth 1000000 in
set_option maxHeartbeats 16000000 in
theorem run_del_c2 :
    run_ops 99 c2fatst [MapOp.del 350] = some c2finalst :=
  beqOS_sound 99 (by decide)

end BTreeMapMod


namespace BTreeMapMod

set_option maxRecDepth 1000000 in
set_option maxHeartbeats 4000000 in
/-- C1: evaluation of the code at a failing input.  After the seventeen
distinct insertions 0..16 (each with value = key), key 11 is present with
value 11 and len() = 17.  The claim (and the spec) say a further
insert(11, 999) must replace the value, return the previous value
Some 11, and leave len() = 17.  The code instead returns None, bumps
len() to 18, leaves get(11) = 11 (the new value 999 is shadowed), and the
in-order key sequence is no longer strictly ascending: 11 was the median
promoted by the pre-emptive `split_child` of the full right child, and
`insert_non_full` never re-compares the key against the promoted median, so
a duplicate 11 is inserted into the left half. -/
theorem c1_insert_present_key_divergence :
    ((run_ops 99 SBTreeMap.new opsC1seq).map fun m =>
      (m.len, m.get_copy 99 11)) = some (17, some (some 11)) ∧
    ((run_ops 99 SBTreeMap.new opsC1seq).bind fun m =>
      (m.insert 99 11 999).map fun p => (p.1, p.2.len)) = some (none, 18) ∧
    ((run_ops 99 SBTreeMap.new opsC1seq).bind fun m =>
      (m.insert 99 11 999).map fun p =>
        (p.2.get_copy 99 11, p.2.sorted_keys 99)) =
    some (some (some 11), false) := by
  refine ⟨by decide, by decide, by decide⟩

set_option maxRecDepth 1000000 in
set_option maxHeartbeats 8000000 in
/-- C2: evaluation of the code at a failing input.  `opsC2attack` inserts 93
distinct keys and removes the root key 350 (which succeeds).  In the
resulting state the pair (280, 280) is still an entry of the tree — 280 was
inserted and never removed — yet `get_copy 280` returns None and
`remove 280` returns None leaving len() = 92: the map has lost the key.
The cause is the borrow branch of `delete_predecessor`
(`delete_sibling(child, n+1, n)` followed by recursion into `children[n]`,
the sibling it just borrowed from, instead of the last child), which hands a
non-maximal key up as the new separator and breaks the search-tree order,
so binary search no longer finds the keys 280..340. -/
theorem c2_remove_lost_key_divergence :
    (run_ops 99 SBTreeMap.new opsC2attack).map (fun m =>
      (decide ((280, 280) ∈ entries 99 m.root), m.get_copy 99 280, m.len)) =
      some (true, some none, 92) ∧
    ((run_ops 99 SBTreeMap.new opsC2attack).bind fun m =>
      (m.remove 99 280).map fun p => (p.1, p.2.len)) = some (none, 92) := by
  have h : run_ops 99 SBTreeMap.new opsC2attack = some c2finalst := by
    rw [show opsC2attack = opsBase80 ++ (opsFattenLeft ++ [MapOp.del 350]) from rfl,
      run_ops_append, run_ops_opsBase80, Option.some_bind, run_ops_append,
      run_ops_opsFattenLeft, Option.some_bind, run_del_c2]
  rw [h]
  exact ⟨by decide, by decide⟩

set_option maxRecDepth 1000000 in
set_option maxHeartbeats 8000000 in
/-- C3: evaluation of the code at a failing input.  After the 86 distinct
insertions of `opsBase80 ++ opsFatten416` the tree satisfies the balance
invariant (`balanced` is true).  Removing the root key 350 routes through
`delete_internal_node` into `delete_successor`, which merges
`children[0]` of the right child with `children[1]` without checking the
sibling size; the fattened sibling makes the merged leaf hold
5 + 1 + 11 = 17 > 2B-1 keys, and afterwards `balanced` is false. -/
theorem c3_balance_invariant_divergence :
    (run_ops 99 SBTreeMap.new (opsBase80 ++ opsFatten416)).map
        (fun m => m.balanced 99) = some true ∧
    (run_ops 99 SBTreeMap.new opsC3attack).map
        (fun m => m.balanced 99) = some false := by
  have h1 : run_ops 99 SBTreeMap.new (opsBase80 ++ opsFatten416) = some c3fatst := by
    rw [run_ops_append, run_ops_opsBase80, Option.some_bind, run_ops_opsFatten416]
  have h2 : run_ops 99 SBTreeMap.new opsC3attack = some c3finalst := by
    rw [show opsC3attack = opsBase80 ++ (opsFatten416 ++ [MapOp.del 350]) from rfl,
      run_ops_append, run_ops_opsBase80, Option.some_bind, run_ops_append,
      run_ops_opsFatten416, Option.some_bind, run_del_c3]
  rw [h1, h2]
  exact ⟨by decide, by decide⟩

end BTreeMapMod

namespace MemAlloc

theorem idxPtr_set_same_size {heap : List MemBoxB} {i : Nat} {b b2 : MemBoxB}
    (hb : heap[i]? = some b) (hsz : b2.size = b.size) :
    ∀ base ovh ptr, idxPtr base ovh (heap.set i b2) ptr = idxPtr base ovh heap ptr := by
  induction heap generalizing i with
  | nil => intro base ovh ptr; simp at hb
  | cons x xs ih =>
    intro base ovh ptr
    cases i with
    | zero =>
      simp only [List.getElem?_cons_zero, Option.some.injEq] at hb
      subst hb
      simp only [List.set_cons_zero, idxPtr, hsz]
    | succ i =>
      simp only [List.getElem?_cons_succ] at hb
      simp only [List.set_cons_succ, idxPtr]
      rw [ih hb]

/-- C10: `deallocate` requires its argument to be a currently allocated
block.  On a block already marked free (a double deallocation),
`assert_allocated(true, ..)` in src/mem/allocator.rs halts execution
(modelled as `none`), so no state is produced and in particular the free
lists are never touched: the already-free block cannot be reinserted. -/
theorem c10_deallocate_requires_allocated (s : SMA) (ptr : Nat) (b : MemBoxB)
    (hfind : findBox s ptr = some b) (hfree : b.allocated = false) :
    deallocate s ptr = none := by
  rcases Option.bind_eq_some.1 hfind with ⟨i, hi, hb⟩
  unfold deallocate
  rw [hi]
  dsimp only
  rw [hb]
  dsimp only
  rw [hfree]
  rfl

/-- Helper: an OutOfMemory result of `pop_allocated_membox` carries the
state unchanged (the growth check is the first effect of the growth branch,
and the search phases only read). -/
theorem pop_oom_state_eq (s : SMA) (size : Nat) (s2 : SMA)
    (h : pop_allocated_membox s size = some (s2, .error ())) : s2 = s := by
  unfold pop_allocated_membox at h
  dsimp only at h
  split at h
  · exact absurd h (by simp)
  · split at h
    · exact absurd h (by simp)
    · simp at h
  · split at h
    · exact absurd h (by simp)
    · split at h
      · exact absurd h (by simp)
      · split at h <;> simp at h
    · split at h
      · simp only [Option.some.injEq, Prod.mk.injEq] at h
        exact h.1.symm
      · split at h <;> simp at h

/-- C6 (amended): an `allocate` call that fails with OutOfMemory leaves
the allocator state (heap, free-list table, existing blocks, counters,
page count) exactly as it was: in `pop_allocated_membox` the growth check
is the first effect of the growth branch and the search phases only read.
The original claim also covered `reallocate`; that part is refuted by
`c6_reallocate_oom_mutates_state` below, because `reallocate` deallocates
the old block before attempting the new allocation. -/
theorem c6_allocate_oom_no_mutation (s : SMA) (size : Nat) (s2 : SMA)
    (h : allocate s size = some (s2, .error ())) : s2 = s := by
  unfold allocate at h
  dsimp only at h
  split at h
  · exact absurd h (by simp)
  · rename_i s3 e hp
    simp only [Option.some.injEq, Prod.mk.injEq] at h
    exact h.1 ▸ pop_oom_state_eq s _ s3 hp
  · split at h
    · exact absurd h (by simp)
    · simp at h

theorem c10_deallocate_requires_allocated_witness :
    findBox (SMA.init 8 8 8 64 4) 8 = some ⟨48, false, List.replicate 48 0⟩ ∧
    deallocate (SMA.init 8 8 8 64 4) 8 = none :=
  ⟨by decide, c10_deallocate_requires_allocated (SMA.init 8 8 8 64 4) 8
    ⟨48, false, List.replicate 48 0⟩ (by decide) (by decide)⟩

/-- C6 (counterexample to the original claim): on a one-page heap, allocate
16 bytes and then reallocate the block to 100 bytes.  The reallocate fails
with OutOfMemory, yet the block passed to it does NOT remain allocated at
its original offset: `c6scenario` reports the OutOfMemory outcome together
with `allocated = false` at the original offset (the block was freed and
merged before the failed allocation attempt). -/
theorem c6_reallocate_oom_mutates_state : c6scenario = some (true, some false) := by decide

theorem c6_allocate_oom_no_mutation_witness :
    allocate (SMA.init 8 8 8 64 1) 1000 = some (SMA.init 8 8 8 64 1, .error ()) ∧
    SMA.init 8 8 8 64 1 = SMA.init 8 8 8 64 1 :=
  ⟨by decide, c6_allocate_oom_no_mutation _ 1000 _ (by decide)⟩

/-- C8: a free block inserted into a segregation-class free list is pushed
at the head of the free list of its size class, and no other class list is
touched: list order is reverse insertion order, never sorted by size or by
address.  Stated for a block with no free physical neighbors, isolating
the insertion policy from the eager merge. -/
theorem c8_push_free_head (s : SMA) (i : Nat) (b : MemBoxB)
    (hb : s.heap[i]? = some b)
    (hid : get_seg_class_id b.size < s.seg.length)
    (hprev : ∀ j pb, i = j + 1 → s.heap[j]? = some pb → pb.allocated = true)
    (hnext : ∀ nb, s.heap[i + 1]? = some nb → nb.allocated = true) :
    classList (push_free_membox s i) (get_seg_class_id b.size) =
      ptrAt s i :: classList s (get_seg_class_id b.size) ∧
    ∀ id2, id2 ≠ get_seg_class_id b.size →
      classList (push_free_membox s i) id2 = classList s id2 := by
  have hm : maybe_merge_with_free_neighbors s i = (s, i) := by
    cases i with
    | zero =>
      unfold maybe_merge_with_free_neighbors
      dsimp only
      cases hn : s.heap[0 + 1]? with
      | none => rfl
      | some next =>
        dsimp only
        rw [hnext next hn, if_pos rfl]
    | succ j =>
      unfold maybe_merge_with_free_neighbors
      dsimp only
      cases hp : s.heap[j]? with
      | none =>
        dsimp only
        cases hn : s.heap[j + 1 + 1]? with
        | none => rfl
        | some next =>
          dsimp only
          rw [hnext next hn, if_pos rfl]
      | some prev =>
        dsimp only
        rw [hprev j prev rfl hp, if_pos rfl]
        dsimp only
        cases hn : s.heap[j + 1 + 1]? with
        | none => rfl
        | some next =>
          dsimp only
          rw [hnext next hn, if_pos rfl]
  unfold push_free_membox
  rw [hm]
  dsimp only
  rw [hb]
  dsimp only
  constructor
  · show classList (consClassHead s (get_seg_class_id b.size) (ptrAt s i))
        (get_seg_class_id b.size) = _
    unfold consClassHead classList
    dsimp only
    rw [List.getElem?_set_self hid]
    rfl
  · intro id2 hne
    show classList (consClassHead s (get_seg_class_id b.size) (ptrAt s i)) id2 = _
    unfold consClassHead classList
    dsimp only
    rw [List.getElem?_set_ne (fun hh => hne hh.symm)]

theorem c8_push_free_head_witness :
    classList (push_free_membox c7w 0)
        (get_seg_class_id (⟨100, false, List.replicate 100 0⟩ : MemBoxB).size) =
      ptrAt c7w 0 ::
        classList c7w (get_seg_class_id (⟨100, false, List.replicate 100 0⟩ : MemBoxB).size) ∧
    classList (push_free_membox c7w 0) 5 = classList c7w 5 :=
  have h := c8_push_free_head c7w 0 ⟨100, false, List.replicate 100 0⟩ (by decide)
    (by decide)
    (fun j pb hj _ => absurd hj (by omega))
    (fun nb hnb => by
      rw [show c7w.heap[0 + 1]? = (none : Option MemBoxB) from by decide] at hnb
      exact Option.noConfusion hnb)
  ⟨h.1, h.2 5 (by decide)⟩

/-- C4: when `reallocate` succeeds, the first `min(old_size, new_size)`
payload bytes readable at the returned offset are byte-for-byte the payload
bytes of the original block before the call (the source reads the whole
payload, deallocates, allocates, and writes the saved bytes into the new
block).  Stated for every successful reallocate, so the relocation case of
the claim is covered.  `hlen` is the block well-formedness fact that the
recorded size equals the payload length. -/
theorem c4_realloc_preserves_payload (s : SMA) (ptr new_size : Nat) (b : MemBoxB)
    (hb : findBox s ptr = some b)
    (hlen : b.data.length = b.size)
    (s2 : SMA) (np : Nat)
    (h : reallocate s ptr new_size = some (s2, .ok np)) :
    (findBox s2 np).map (fun nb => nb.data.take (min b.size new_size)) =
      some (b.data.take (min b.size new_size)) := by
  unfold reallocate at h
  rw [hb] at h
  dsimp only at h
  split at h
  · exact absurd h (by simp)
  · split at h
    · exact absurd h (by simp)
    · simp at h
    · rename_i s2a npa hallocate
      split at h
      · exact absurd h (by simp)
      · rename_i i hIdx
        split at h
        · exact absurd h (by simp)
        · rename_i nb hNb
          split at h
          · exact absurd h (by simp)
          · rename_i hsz
            simp only [Option.some.injEq, Prod.mk.injEq, Except.ok.injEq] at h
            obtain ⟨hs2, hnp⟩ := h
            subst hs2
            subst hnp
            have hlt : i < s2a.heap.length := (List.getElem?_eq_some.1 hNb).1
            have hidx2 : findIdx (setHeapAt s2a i
                ⟨nb.size, nb.allocated, b.data ++ nb.data.drop b.data.length⟩) npa = some i := by
              show idxPtr s2a.base s2a.ovh (s2a.heap.set i _) npa = some i
              rw [@idxPtr_set_same_size s2a.heap i nb
                ⟨nb.size, nb.allocated, b.data ++ nb.data.drop b.data.length⟩ hNb rfl]
              exact hIdx
            have hget : (s2a.heap.set i
                (⟨nb.size, nb.allocated, b.data ++ nb.data.drop b.data.length⟩ : MemBoxB))[i]? =
                some ⟨nb.size, nb.allocated, b.data ++ nb.data.drop b.data.length⟩ :=
              List.getElem?_set_self hlt
            unfold findBox
            rw [hidx2]
            have hmin : min b.size new_size ≤ b.data.length := by
              rw [hlen]; exact Nat.min_le_left ..
            simp only [Option.some_bind, setHeapAt, hget]
            show some (List.take (b.size ⊓ new_size) (b.data ++ List.drop b.data.length nb.data)) = _
            rw [List.take_append_of_le_length hmin]

theorem c4_realloc_preserves_payload_witness :
    reallocate c4w1 8 100 = some (c4w2, .ok 64) ∧
    (findBox c4w2 64).map (fun nb => nb.data.take (min 16 100)) =
      some ((List.replicate 16 0).take (min 16 100)) :=
  ⟨by decide,
   c4_realloc_preserves_payload c4w1 8 100 ⟨16, true, List.replicate 16 0⟩
     (by decide) (by decide) c4w2 64 (by decide)⟩

theorem log2fuel_spec : ∀ f n, n ≤ f → 1 ≤ n →
    2 ^ log2fuel f n ≤ n ∧ n < 2 ^ (log2fuel f n + 1) := by
  intro f
  induction f with
  | zero => intro n hn h1; omega
  | succ f ih =>
    intro n hn h1
    unfold log2fuel
    by_cases hle : n ≤ 1
    · rw [if_pos hle]
      constructor
      · simpa using h1
      · have : n = 1 := by omega
        subst this
        decide
    · rw [if_neg hle]
      have h2 : 2 ≤ n := by omega
      have hrec := ih (n / 2) (by omega) (by omega)
      obtain ⟨hl, hr⟩ := hrec
      constructor
      · rw [pow_succ]
        omega
      · rw [pow_succ]
        omega

/-- The ceiling adjustment inside `get_seg_class_id`, as an upper bound:
every size fits under two to its adjusted logarithm. -/
theorem ceil_ub (n : Nat) :
    n ≤ 2 ^ (if 2 ^ fast_log2 n < n then fast_log2 n + 1 else fast_log2 n) := by
  unfold fast_log2
  by_cases h0 : 1 ≤ n
  · have h := log2fuel_spec n n (le_refl n) h0
    by_cases hc : 2 ^ log2fuel n n < n
    · rw [if_pos hc]
      exact le_of_lt h.2
    · rw [if_neg hc]
      omega
  · have : n = 0 := by omega
    subst this
    simp

/-- Minimality of the adjusted logarithm. -/
theorem ceil_min (n k : Nat) (hk : n ≤ 2 ^ k) :
    (if 2 ^ fast_log2 n < n then fast_log2 n + 1 else fast_log2 n) ≤ k := by
  unfold fast_log2
  by_cases h0 : 1 ≤ n
  · have h := log2fuel_spec n n (le_refl n) h0
    by_cases hc : 2 ^ log2fuel n n < n
    · rw [if_pos hc]
      have hlt : 2 ^ log2fuel n n < 2 ^ k := by omega
      exact Nat.pow_lt_pow_iff_right (by omega) |>.1 hlt
    · rw [if_neg hc]
      have hle2 : 2 ^ log2fuel n n ≤ 2 ^ k := by omega
      exact Nat.pow_le_pow_iff_right (by omega) |>.1 hle2
  · have : n = 0 := by omega
    subst this
    simp [log2fuel]

/-- `get_seg_class_id` is monotone in the size. -/
theorem get_seg_class_id_mono {m n : Nat} (h : m ≤ n) :
    get_seg_class_id m ≤ get_seg_class_id n := by
  have hmn := ceil_min m _ (le_trans h (ceil_ub n))
  unfold get_seg_class_id
  dsimp only
  set a := (if 2 ^ fast_log2 m < m then fast_log2 m + 1 else fast_log2 m) with ha
  set b := (if 2 ^ fast_log2 n < n then fast_log2 n + 1 else fast_log2 n) with hb
  split <;> split <;> omega

/-- The class gap: a block living in a strictly larger segregation class
than the requested size is at least as large as the request. -/
theorem class_gap {size bsz : Nat}
    (h : get_seg_class_id size < get_seg_class_id bsz) : size ≤ bsz := by
  by_contra hlt
  exact absurd (get_seg_class_id_mono (le_of_not_le hlt)) (by omega)

theorem segOK_resolve (s : SMA) (hwf : segOK s = true) :
    ∀ id, id < SEG_CLASS_PTRS_COUNT → ∀ ptr, ptr ∈ classList s id →
      ∃ b, findBox s ptr = some b ∧ b.allocated = false ∧ get_seg_class_id b.size = id := by
  intro id hid ptr hmem
  unfold segOK at hwf
  rw [Bool.and_eq_true] at hwf
  obtain ⟨h1, _⟩ := hwf
  rw [List.all_eq_true] at h1
  have h2 := h1 id (List.mem_range.2 hid)
  rw [List.all_eq_true] at h2
  have h3 := h2 ptr hmem
  cases hf : findBox s ptr with
  | none => rw [hf] at h3; exact absurd h3 (by simp)
  | some b =>
    rw [hf] at h3
    dsimp only at h3
    rw [Bool.and_eq_true] at h3
    refine ⟨b, rfl, ?_, ?_⟩
    · simpa using h3.1
    · simpa using h3.2

theorem res_class (s : SMA) (hwf : segOK s = true)
    (hlen : s.seg.length = SEG_CLASS_PTRS_COUNT) :
    ∀ id, ∀ ptr ∈ classList s id, ∃ b, findBox s ptr = some b := by
  intro id ptr hmem
  by_cases hid : id < SEG_CLASS_PTRS_COUNT
  · obtain ⟨b, hb, _⟩ := segOK_resolve s hwf id hid ptr hmem
    exact ⟨b, hb⟩
  · exfalso
    have he : classList s id = [] := by
      unfold classList
      rw [List.getElem?_eq_none (by omega)]
      rfl
    rw [he] at hmem
    exact absurd hmem (List.not_mem_nil ptr)

theorem search_eq_firstFit (s : SMA) (size : Nat) :
    ∀ l : List Nat, (∀ ptr ∈ l, ∃ b, findBox s ptr = some b) →
      search_seg_class s size l = some (firstFit s size l) := by
  intro l
  induction l with
  | nil => intro _; rfl
  | cons p rest ih =>
    intro hres
    obtain ⟨b, hb⟩ := hres p (List.mem_cons_self p rest)
    unfold search_seg_class
    rw [hb]
    dsimp only
    unfold firstFit
    have hfits : fits s size p = decide (size ≤ b.size) := by
      unfold fits
      rw [hb]
    by_cases hle : size ≤ b.size
    · rw [if_pos hle, List.find?_cons_of_pos _ (by rw [hfits]; simpa using hle)]
    · rw [if_neg hle, ih (fun q hq => hres q (List.mem_cons_of_mem p hq)),
        List.find?_cons_of_neg _ (by rw [hfits]; simpa using hle)]
      rfl

theorem search_larger_exhaust (s : SMA) (size : Nat) :
    ∀ fuel k, (∀ j, k ≤ j → j < SEG_CLASS_PTRS_COUNT → classList s j = []) →
      ∃ lid, search_larger s size fuel k none = some (lid, none) := by
  intro fuel
  induction fuel with
  | zero => intro k _; exact ⟨k, rfl⟩
  | succ f ih =>
    intro k hempty
    unfold search_larger
    by_cases hge : SEG_CLASS_PTRS_COUNT ≤ k
    · rw [if_pos hge]; exact ⟨k, rfl⟩
    · rw [if_neg hge]
      have he : classList s k = [] := hempty k (le_refl k) (by omega)
      rw [he]
      dsimp only [List.head?]
      exact ih (k + 1) (fun j hj1 hj2 => hempty j (by omega) hj2)

theorem search_larger_found (s : SMA) (size : Nat) (hwf : segOK s = true) :
    ∀ fuel k j, SEG_CLASS_PTRS_COUNT ≤ k + fuel → k ≤ j → j < SEG_CLASS_PTRS_COUNT →
      get_seg_class_id size < k →
      (∀ j2, k ≤ j2 → j2 < j → classList s j2 = []) →
      classList s j ≠ [] →
      ∃ ptr, (classList s j).head? = some ptr ∧
        search_larger s size fuel k none = some (j, some ptr) := by
  intro fuel
  induction fuel with
  | zero => intro k j hk hkj hj _ _ _; exact absurd hj (by omega)
  | succ f ih =>
    intro k j hk hkj hj hgt hempty hne
    unfold search_larger
    rw [if_neg (by omega)]
    by_cases hkj2 : k = j
    · subst hkj2
      cases hl : classList s k with
      | nil => exact absurd hl hne
      | cons p rest =>
        dsimp only [List.head?]
        obtain ⟨b, hb, _, hcls⟩ := segOK_resolve s hwf k (by omega) p
          (by rw [hl]; exact List.mem_cons_self p rest)
        rw [hb]
        dsimp only
        have hfit : size ≤ b.size := class_gap (by rw [hcls]; omega)
        rw [if_pos hfit]
        exact ⟨p, rfl, rfl⟩
    · have he : classList s k = [] := hempty k (le_refl k) (by omega)
      rw [he]
      dsimp only [List.head?]
      exact ih (k + 1) j (by omega) (by omega) hj (by omega)
        (fun j2 ha hb2 => hempty j2 (by omega) hb2) hne

theorem findIdx_eject (s : SMA) (id p ptr : Nat) :
    findIdx (eject_from_freelist s id p) ptr = findIdx s ptr := rfl

theorem pages_mergeAt (s : SMA) (i : Nat) : (mergeAt s i).pages = s.pages := by
  unfold mergeAt
  cases h1 : s.heap[i]? <;> cases h2 : s.heap[i + 1]? <;> rfl

theorem pages_setAllocatedAt (s : SMA) (i : Nat) (a : Bool) :
    (setAllocatedAt s i a).pages = s.pages := by
  unfold setAllocatedAt
  cases h : s.heap[i]? <;> rfl

theorem pages_maybe_merge (s : SMA) (i : Nat) :
    (maybe_merge_with_free_neighbors s i).1.pages = s.pages := by
  have hphase2 : ∀ (s1 : SMA) (i1 : Nat), s1.pages = s.pages →
      (match s1.heap[i1 + 1]? with
       | none => (s1, i1)
       | some next =>
         if next.allocated then (s1, i1)
         else (mergeAt (eject_from_freelist s1 (get_seg_class_id next.size)
           (ptrAt s1 (i1 + 1))) i1, i1)).1.pages = s.pages := by
    intro s1 i1 h1
    cases hn : s1.heap[i1 + 1]? with
    | none => exact h1
    | some next =>
      dsimp only
      by_cases ha : next.allocated
      · rw [if_pos ha]; exact h1
      · rw [if_neg ha]
        show (mergeAt _ i1).pages = s.pages
        rw [pages_mergeAt]
        exact h1
  unfold maybe_merge_with_free_neighbors
  cases i with
  | zero => exact hphase2 s 0 rfl
  | succ j =>
    dsimp only
    cases hp : s.heap[j]? with
    | none => exact hphase2 s (j + 1) rfl
    | some prev =>
      dsimp only
      by_cases ha : prev.allocated
      · rw [if_pos ha]
        exact hphase2 s (j + 1) rfl
      · rw [if_neg ha]
        exact hphase2 _ j (pages_mergeAt _ j)

theorem pages_push (s : SMA) (i : Nat) : (push_free_membox s i).pages = s.pages := by
  unfold push_free_membox
  have h1 := pages_maybe_merge s i
  cases hp : maybe_merge_with_free_neighbors s i with
  | mk s1 i1 =>
    rw [hp] at h1
    dsimp only
    cases hb : s1.heap[i1]? with
    | none => exact h1
    | some b => exact h1

theorem pages_split (s : SMA) (i size : Nat) (s2 : SMA)
    (h : split_membox s i size = some s2) : s2.pages = s.pages := by
  unfold split_membox at h
  split at h
  · exact absurd h (by simp)
  · split at h
    · simp only [Option.some.injEq] at h
      rw [← h]
    · exact absurd h (by simp)

theorem offAt_append (ovh : Nat) (x : MemBoxB) :
    ∀ (l : List MemBoxB) (base : Nat),
      offAt base ovh (l ++ [x]) l.length = offAt base ovh l l.length := by
  intro l
  induction l with
  | nil => intro base; rfl
  | cons b bs ih => intro base; exact ih (base + ovh + b.size)

/-- C7 (amended): the allocation policy of `pop_allocated_membox` in
src/src/mem/allocator.rs, for a well-formed free-list table (`segOK`, with
the table of its full width).  (a) If the ideal class of `size` holds a
fitting block, the FIRST fitting block of that list (first-fit, `firstFit`)
is returned.  (b) If not, and some larger class is non-empty, the HEAD of
the first non-empty larger class is returned (under `segOK` every block of
a larger class is large enough).  (c) Only when the ideal class has no fit
and every larger class is empty does the allocator grow the heap: it
either fails OutOfMemory with the state unchanged, or returns the offset
of the first block carved from the grown region (the old end of the heap)
with the page count strictly increased. -/
theorem c7_pop_first_fit (s : SMA) (size : Nat)
    (hwf : segOK s = true) (hlen : s.seg.length = SEG_CLASS_PTRS_COUNT) :
    (∀ ptr, firstFit s size (classList s (get_seg_class_id size)) = some ptr →
      ∃ s2, pop_allocated_membox s size = some (s2, .ok ptr)) ∧
    (firstFit s size (classList s (get_seg_class_id size)) = none →
      ∀ j, get_seg_class_id size < j → j < SEG_CLASS_PTRS_COUNT → classList s j ≠ [] →
        (∀ j2, get_seg_class_id size < j2 → j2 < j → classList s j2 = []) →
        ∃ ptr s2, (classList s j).head? = some ptr ∧
          pop_allocated_membox s size = some (s2, .ok ptr)) ∧
    (firstFit s size (classList s (get_seg_class_id size)) = none →
      (∀ j, get_seg_class_id size < j → j < SEG_CLASS_PTRS_COUNT → classList s j = []) →
      pop_allocated_membox s size = some (s, .error ()) ∨
      ∃ s2, pop_allocated_membox s size = some (s2, .ok (ptrAt s s.heap.length)) ∧
        s.pages < s2.pages) := by
  have hres := res_class s hwf hlen
  have hsearch := search_eq_firstFit s size (classList s (get_seg_class_id size))
    (hres (get_seg_class_id size))
  refine ⟨?_, ?_, ?_⟩
  · intro ptr hFF
    unfold pop_allocated_membox
    dsimp only
    rw [hsearch, hFF]
    dsimp only
    obtain ⟨b, hb⟩ := hres _ ptr (List.mem_of_find?_eq_some hFF)
    unfold findBox at hb
    obtain ⟨i, hi, _⟩ := Option.bind_eq_some.1 hb
    rw [findIdx_eject, hi]
    dsimp only
    exact ⟨_, rfl⟩
  · intro hFF j hgt hj hne hempty
    unfold pop_allocated_membox
    dsimp only
    rw [hsearch, hFF]
    dsimp only
    obtain ⟨ptr, hhead, hsl⟩ := search_larger_found s size hwf SEG_CLASS_PTRS_COUNT
      (get_seg_class_id size + 1) j (by omega) (by omega) hj (by omega)
      (fun j2 ha hb2 => hempty j2 (by omega) hb2) hne
    rw [hsl]
    dsimp only
    have hmem : ptr ∈ classList s j := List.mem_of_mem_head? hhead
    obtain ⟨b, hb⟩ := hres j ptr hmem
    unfold findBox at hb
    obtain ⟨i, hi, _⟩ := Option.bind_eq_some.1 hb
    rw [findIdx_eject, hi]
    dsimp only
    split
    · exact ⟨ptr, _, hhead, rfl⟩
    · exact ⟨ptr, _, hhead, rfl⟩
  · intro hFF hempty
    unfold pop_allocated_membox
    dsimp only
    rw [hsearch, hFF]
    dsimp only
    obtain ⟨lid, hsl⟩ := search_larger_exhaust s size SEG_CLASS_PTRS_COUNT
      (get_seg_class_id size + 1) (fun j hj1 hj2 => hempty j (by omega) hj2)
    rw [hsl]
    dsimp only
    by_cases hoom : s.maxPages < s.pages + (size / s.pageSize + 1)
    · rw [if_pos hoom]
      exact Or.inl rfl
    · rw [if_neg hoom]
      have hptr : ∀ (pg fs : Nat) (nb : MemBoxB),
          ptrAt { s with pages := pg, heap := s.heap ++ [nb], freeSize := fs }
            s.heap.length = ptrAt s s.heap.length := by
        intro pg fs nb
        show offAt s.base s.ovh (s.heap ++ [nb]) s.heap.length =
          offAt s.base s.ovh s.heap s.heap.length
        exact offAt_append s.ovh nb s.heap s.base
      split
      · rename_i s5 heq
        rw [hptr]
        refine Or.inr ⟨_, rfl, ?_⟩
        rw [pages_push, pages_setAllocatedAt, pages_split _ _ _ _ heq]
        exact Nat.lt_add_of_pos_right (Nat.succ_pos _)
      · rw [hptr]
        refine Or.inr ⟨_, rfl, ?_⟩
        rw [pages_setAllocatedAt]
        exact Nat.lt_add_of_pos_right (Nat.succ_pos _)

theorem c7_pop_first_fit_witness :
    ∃ s2, pop_allocated_membox c7w 80 = some (s2, .ok 8) :=
  (c7_pop_first_fit c7w 80 (by decide) (by decide)).1 8 (by decide)

end MemAlloc

namespace SMAL

open MemAlloc (MemBoxB)


/-- C8 (counterexample to the original claim): `add_block_to_free_list`
of src/src/stable_memory_allocator.rs does NOT push at the head.  On a
class-0 free list `[8, 88]`, inserting the free 24-byte block at offset 48
lands it in the middle, at its address-sorted position `[8, 48, 88]` — not
at the head as the claim states for every insertion. -/
theorem c8_legacy_sorted_insertion :
    find_seg_class_idx 24 = 0 ∧
    classListL (add_block_to_free_list c8L 48 24) 0 = [8, 48, 88] ∧
    classListL (add_block_to_free_list c8L 48 24) 0 ≠ 48 :: classListL c8L 0 := by
  decide

/-- C9: the no-two-adjacent-free-blocks invariant is breakable.  From a
fresh legacy allocator: allocate 8 bytes (block A at offset 8), allocate
16 bytes (block B at offset 32), deallocate A, then reallocate B to 90
bytes.  The reallocate frees B, finds no room in place, and its fallback
inserts B into the free list WITHOUT merging towards the left neighbor A,
which is free: the run succeeds and leaves the heap with the adjacent
blocks A and B both free (`adjacentOK = false`). -/
theorem c9_adjacent_free_blocks_reachable :
    (runAllocL (SMALState.init 8 8 8 64 6) c9ops).map
      (fun st => (MemAlloc.adjacentOK st.heap, st.heap.map (fun b => b.allocated))) =
      some (false, [false, false, true, false]) := by
  decide

/-- C7 (counterexample to the original claim): `find_appropriate_free_mem_block`
in src/src/stable_memory_allocator.rs is neither first-fit nor
first-class.  Requesting 33 bytes on `c7L`: the first fitting block of the
ideal class (class 1) is the 40-byte block at offset 8, yet within the
class the function best-fits to the closer 36-byte block at offset 104,
and since its class loop never breaks, the result is overwritten by the
600-byte block at offset 196 from class 5 — the LAST class with a fit, not
the first. -/
theorem c7_legacy_best_fit_last_class :
    find_seg_class_idx 33 = 1 ∧
    findFirstFit c7L 33 (classListL c7L (find_seg_class_idx 33)) =
      some (some (8, 40, [104])) ∧
    find_in_class c7L 33 (classListL c7L (find_seg_class_idx 33)) = some (some 104) ∧
    find_appropriate_free_mem_block c7L 33 = some (some (196, 5)) := by
  decide

end SMAL

